import Mathlib

/-!
Verification development for the NEXUS-format parsing core of the
stsupport repository (NCL 2.01: tokenizer `NexusToken`, dispatcher
`Nexus::Execute`, character-matrix parser `CharactersBlock`, cell store
`DiscreteMatrix`/`DiscreteDatum`, range-set reader `SetReader`).

Each definition is a shallow embedding of the corresponding C++ function,
translated line by line from the source.  C++ `int` becomes `Int` (no
overflow is reachable in the verified scenarios), `assert` failures and
thrown `XNexus` exceptions become `Except` errors, and raw arrays become
lists.
-/

namespace STSupport

/-! ## DiscreteDatum / DiscreteMatrix (discretematrix.cpp)

A `DiscreteDatum` holds `int* states`.  Encoding used by the source:
`states == NULL` is the missing state; `states = [0]` (zero state count)
is the gap state; `states = [1, v]` is the single state `v`;
`states = [n, s1, ..., sn, poly]` with `n >= 2` is a multi-state cell
whose last cell is the polymorphism flag.  We model the `int*` array as
`Option (List Int)` (`none` = `NULL`), keeping the raw layout. -/

structure DiscreteDatum where
  states : Option (List Int)
  deriving Repr, DecidableEq

/-- Constructor default: `states = NULL` (missing). -/
def DiscreteDatum.init : DiscreteDatum := ⟨none⟩

namespace DiscreteMatrix

/-- `DiscreteMatrix::IsMissing(DiscreteDatum&)`: 1 iff `states == NULL`. -/
def IsMissingD (d : DiscreteDatum) : Bool :=
  d.states.isNone

/-- `DiscreteMatrix::IsGap(DiscreteDatum&)`: 0 if `states == NULL` or
`states[0] > 0`, else 1. -/
def IsGapD (d : DiscreteDatum) : Bool :=
  match d.states with
  | none => false
  | some l => !(l.headI > 0)

/-- `DiscreteMatrix::GetNumStates(DiscreteDatum&)`: 0 if `states == NULL`,
else `states[0]`. -/
def GetNumStatesD (d : DiscreteDatum) : Int :=
  match d.states with
  | none => 0
  | some l => l.headI

/-- `DiscreteMatrix::IsPolymorphic(DiscreteDatum&)`: 0 when missing, gap or
fewer than two states; otherwise the last cell `states[nstates+1]`. -/
def IsPolymorphicD (d : DiscreteDatum) : Bool :=
  match d.states with
  | none => false
  | some l =>
      if l.headI < 2 then false
      else !(l.getLastI == 0)

/-- `DiscreteMatrix::GetState(DiscreteDatum&, int)`: asserts the cell is not
missing, not gap, and `0 <= i < states[0]`; returns `states[i+1]`.  The
asserts are modelled as `none`. -/
def GetStateD (d : DiscreteDatum) (i : Int := 0) : Option Int :=
  match d.states with
  | none => none           -- assert( !IsMissing(d) ) fails
  | some l =>
      if IsGapD ⟨some l⟩ then none          -- assert( !IsGap(d) ) fails
      else if i < 0 then none               -- assert( i >= 0 ) fails
      else if i < l.headI then l.getI (i.toNat + 1)
      else none                             -- assert( i < d.states[0] ) fails

/-- `DiscreteMatrix::SetState(DiscreteDatum&, int)`: overwrites states with
the two-cell array `[1, value]`. -/
def SetStateD (_d : DiscreteDatum) (value : Int) : DiscreteDatum :=
  ⟨some [1, value]⟩

/-- `DiscreteMatrix::SetMissing(DiscreteDatum&)`: states becomes `NULL`. -/
def SetMissingD (_d : DiscreteDatum) : DiscreteDatum :=
  ⟨none⟩

/-- `DiscreteMatrix::SetGap(DiscreteDatum&)`: states becomes the one-cell
array `[0]`. -/
def SetGapD (_d : DiscreteDatum) : DiscreteDatum :=
  ⟨some [0]⟩

/-- `DiscreteMatrix::AddState(DiscreteDatum&, int)`: missing or gap cells
become the single state `[1, value]`; a single state becomes
`[2, old, value, 0]`; an `n`-state cell (`n >= 2`) becomes
`[n+1, s1, ..., sn, value, 0]`. -/
def AddStateD (d : DiscreteDatum) (value : Int) : DiscreteDatum :=
  match d.states with
  | none => ⟨some [1, value]⟩                                -- IsMissing(d)
  | some l =>
      if IsGapD ⟨some l⟩ then ⟨some [1, value]⟩              -- IsGap(d)
      else if l.headI == 1 then
        ⟨some [2, l.getI 1, value, 0]⟩                       -- oldns == 1
      else
        -- general case: states[0] := oldns+1, copy old states, append
        -- value and a 0 polymorphism cell
        let oldns := l.headI.toNat
        ⟨some ((l.headI + 1) :: ((l.drop 1).take oldns ++ [value, 0]))⟩

/-- `DiscreteMatrix::SetPolymorphic(DiscreteDatum&, int)`: no effect when
missing, gap, or fewer than two states; otherwise overwrites the last cell
with `value`. -/
def SetPolymorphicD (d : DiscreteDatum) (value : Int) : DiscreteDatum :=
  match d.states with
  | none => d
  | some l =>
      if l.headI < 2 then d
      else ⟨some (l.dropLast ++ [value])⟩

/-- `DiscreteDatum::CopyFrom` via `CopyStatesFromFirstTaxon`: duplicates the
other cell's encoding exactly. -/
def CopyFromD (_d other : DiscreteDatum) : DiscreteDatum := other

end DiscreteMatrix

/-- The dense cell store: `nrows` lists of `ncols` cells. -/
abbrev CellGrid := List (List DiscreteDatum)

namespace DiscreteMatrix

/-- Fresh `DiscreteMatrix(rows, cols)`: every cell default-initialized
(missing). -/
def mkGrid (rows cols : Nat) : CellGrid :=
  List.replicate rows (List.replicate cols DiscreteDatum.init)

/-- Update cell `(i, j)` of the grid with `f`. -/
def updCell (g : CellGrid) (i j : Nat) (f : DiscreteDatum → DiscreteDatum) :
    CellGrid :=
  g.modify (fun row => row.modify f j) i

/-- Read cell `(i, j)` (missing datum when out of range, which the verified
runs never exercise: the C++ indexes blindly). -/
def cell (g : CellGrid) (i j : Nat) : DiscreteDatum :=
  (g.getD i []).getD j DiscreteDatum.init

/-- `DiscreteMatrix::SetState(i, j, value)` on the grid. -/
def SetState (g : CellGrid) (i j : Nat) (value : Int) : CellGrid :=
  updCell g i j (fun d => SetStateD d value)

/-- `DiscreteMatrix::SetMissing(i, j)` on the grid. -/
def SetMissing (g : CellGrid) (i j : Nat) : CellGrid :=
  updCell g i j SetMissingD

/-- `DiscreteMatrix::SetGap(i, j)` on the grid. -/
def SetGap (g : CellGrid) (i j : Nat) : CellGrid :=
  updCell g i j SetGapD

/-- `DiscreteMatrix::AddState(i, j, value)` on the grid. -/
def AddState (g : CellGrid) (i j : Nat) (value : Int) : CellGrid :=
  updCell g i j (fun d => AddStateD d value)

/-- `DiscreteMatrix::SetPolymorphic(i, j, value)` on the grid. -/
def SetPolymorphic (g : CellGrid) (i j : Nat) (value : Int) : CellGrid :=
  updCell g i j (fun d => SetPolymorphicD d value)

/-- `DiscreteMatrix::CopyStatesFromFirstTaxon(i, j)`: cell `(i,j)` copies
cell `(0,j)`. -/
def CopyStatesFromFirstTaxon (g : CellGrid) (i j : Nat) : CellGrid :=
  updCell g i j (fun d => CopyFromD d (cell g 0 j))

/-- `DiscreteMatrix::GetState(i, j, k)` on the grid. -/
def GetState (g : CellGrid) (i j : Nat) (k : Int := 0) : Option Int :=
  GetStateD (cell g i j) k

end DiscreteMatrix

/-! ## CharactersBlock::GetState (charactersblock.cpp, lines 1041-1052)

`p = matrix->GetState(i, j, k); assert(p < symbolsLen); return symbols[p]`.
The symbols alphabet is a `List Char`; the assert (and the implicit
requirement `p >= 0` of a valid array read) is modelled as `none`. -/

def CharactersBlock.GetState (symbols : List Char) (g : CellGrid)
    (i j : Nat) (k : Int := 0) : Option Char :=
  match DiscreteMatrix.GetState g i j k with
  | none => none
  | some p =>
      if p < (symbols.length : Int) then
        if h : 0 ≤ p ∧ p.toNat < symbols.length then some (symbols.get ⟨p.toNat, h.2⟩)
        else none
      else none       -- assert( p < symbolsLen ) fails

/-! ## CharactersBlock::BuildCharPosArray (charactersblock.cpp, lines 521-534)

```cpp
charPos = new int[ncharTotal];
int k = 0;
for( int j = 0; j < ncharTotal; j++ ) {
    if( check_eliminated && IsEliminated(j) ) charPos[j] = -1;
    else charPos[j] = k++;
}
```
`IsEliminated(j)` is membership of `j` in the `eliminated` set. -/

def BuildCharPosAux (check : Bool) (eliminated : List Nat) :
    Nat → Nat → Nat → List Int
  | 0, _, _ => []
  | n + 1, j, k =>
      if check && eliminated.contains j then
        -1 :: BuildCharPosAux check eliminated n (j + 1) k
      else (k : Int) :: BuildCharPosAux check eliminated n (j + 1) (k + 1)

def BuildCharPosArray (check : Bool) (ncharTotal : Nat)
    (eliminated : List Nat) : List Int :=
  BuildCharPosAux check eliminated ncharTotal 0 0

/-- Counts positions `j, j+1, ..., j+i-1` satisfying `P`. -/
def cntFrom (P : Nat → Bool) : Nat → Nat → Nat
  | _, 0 => 0
  | j, i + 1 => (if P j then 1 else 0) + cntFrom P (j + 1) i

theorem cntFrom_add (P : Nat → Bool) (a : Nat) :
    ∀ j b, cntFrom P j (a + b) = cntFrom P j a + cntFrom P (j + a) b := by
  induction a with
  | zero => intro j b; simp [cntFrom]
  | succ a ih =>
      intro j b
      rw [show a + 1 + b = (a + b) + 1 by omega]
      simp only [cntFrom]
      rw [ih (j + 1) b, show j + (a + 1) = j + 1 + a by omega]
      omega

theorem BuildCharPosAux_get (check : Bool) (elim : List Nat) :
    ∀ n j k i, i < n →
      (BuildCharPosAux check elim n j k).getI i =
        (if (check && elim.contains (j + i)) = true then
          (-1 : Int)
        else
          (k : Int) + cntFrom (fun m => !(check && elim.contains m)) j i) := by
  intro n
  induction n with
  | zero => intro j k i h; omega
  | succ n ih =>
      intro j k i h
      by_cases hj : (check && elim.contains j) = true
      · simp only [BuildCharPosAux]
        rw [if_pos hj]
        cases i with
        | zero =>
            simp only [Nat.add_zero]
            rw [if_pos hj]
            rfl
        | succ i =>
            have hi : i < n := by omega
            rw [List.getI_cons_succ, ih (j + 1) k i hi,
              show j + (i + 1) = j + 1 + i by omega]
            by_cases hs : (check && elim.contains (j + 1 + i)) = true
            · rw [if_pos hs, if_pos hs]
            · rw [if_neg hs, if_neg hs]
              have hj' : check = true ∧ j ∈ elim := by simpa using hj
              simp [cntFrom, hj']
      · simp only [BuildCharPosAux]
        rw [if_neg hj]
        rw [Bool.not_eq_true] at hj
        cases i with
        | zero =>
            simp only [Nat.add_zero]
            rw [if_neg (by rw [hj]; simp)]
            simp [List.getI, cntFrom]
        | succ i =>
            have hi : i < n := by omega
            rw [List.getI_cons_succ, ih (j + 1) (k + 1) i hi,
              show j + (i + 1) = j + 1 + i by omega]
            by_cases hs : (check && elim.contains (j + 1 + i)) = true
            · rw [if_pos hs, if_pos hs]
            · rw [if_neg hs, if_neg hs]
              simp only [cntFrom, hj]
              push_cast
              simp
              omega

/-- **C1** (index-map invariant).  For a column position map built by
`BuildCharPosArray` — the identity map when `check = false` (no ELIMINATE
seen), or the elimination-aware map `BuildCharPosArray(true)` after an
ELIMINATE command — every eliminated original index maps to the removed
sentinel `-1`, and for every pair of non-eliminated original indices
`j1 < j2` the mapped current indices are non-negative and strictly
increasing (hence distinct). -/
theorem charPos_invariant (check : Bool) (total : Nat) (elim : List Nat) :
    (∀ j, j < total → check = true → j ∈ elim →
        (BuildCharPosArray check total elim).getI j = -1) ∧
    (∀ j1 j2, j1 < j2 → j2 < total →
        ¬(check = true ∧ j1 ∈ elim) → ¬(check = true ∧ j2 ∈ elim) →
        0 ≤ (BuildCharPosArray check total elim).getI j1 ∧
        (BuildCharPosArray check total elim).getI j1 <
          (BuildCharPosArray check total elim).getI j2) := by
  constructor
  · intro j hj hc hm
    unfold BuildCharPosArray
    rw [BuildCharPosAux_get check elim total 0 0 j hj]
    rw [if_pos (by simp [hc, hm])]
  · intro j1 j2 h12 h2 hp1 hp2
    have h1 : j1 < total := by omega
    have hb1 : (check && elim.contains j1) = false := by
      cases hcc : (check && elim.contains j1)
      · rfl
      · exact absurd (by simpa using hcc) hp1
    have hb2 : (check && elim.contains j2) = false := by
      cases hcc : (check && elim.contains j2)
      · rfl
      · exact absurd (by simpa using hcc) hp2
    unfold BuildCharPosArray
    rw [BuildCharPosAux_get check elim total 0 0 j1 h1,
        BuildCharPosAux_get check elim total 0 0 j2 h2]
    simp only [Nat.zero_add]
    rw [if_neg (by rw [hb1]; simp), if_neg (by rw [hb2]; simp)]
    have hsplit : cntFrom (fun m => !(check && elim.contains m)) 0 j2 =
        cntFrom (fun m => !(check && elim.contains m)) 0 j1 +
        cntFrom (fun m => !(check && elim.contains m)) j1 (j2 - j1) := by
      have hadd := cntFrom_add (fun m => !(check && elim.contains m)) j1 0 (j2 - j1)
      rw [show j1 + (j2 - j1) = j2 by omega] at hadd
      simpa using hadd
    have hpos : 1 ≤ cntFrom (fun m => !(check && elim.contains m)) j1 (j2 - j1) := by
      obtain ⟨d, hd⟩ : ∃ d, j2 - j1 = d + 1 := ⟨j2 - j1 - 1, by omega⟩
      rw [hd]
      have hcp : check = false ∨ j1 ∉ elim := by
        by_cases hc : check = true
        · exact Or.inr (fun hm => hp1 ⟨hc, hm⟩)
        · exact Or.inl (by simpa using hc)
      simp only [cntFrom]
      simp [hcp]
    constructor
    · positivity
    · push_cast
      omega

/-- Witness for `charPos_invariant`: concrete run with `ncharTotal = 3` and
original index 1 eliminated, giving `charPos = [0, -1, 1]`. -/
theorem charPos_invariant_witness :
    (BuildCharPosArray true 3 [1]).getI 1 = -1 ∧
    0 ≤ (BuildCharPosArray true 3 [1]).getI 0 ∧
    (BuildCharPosArray true 3 [1]).getI 0 <
      (BuildCharPosArray true 3 [1]).getI 2 := by
  refine ⟨?_, ?_, ?_⟩
  · exact (charPos_invariant true 3 [1]).1 1 (by decide) rfl (by decide)
  · exact ((charPos_invariant true 3 [1]).2 0 2 (by decide) (by decide)
      (by decide) (by decide)).1
  · exact ((charPos_invariant true 3 [1]).2 0 2 (by decide) (by decide)
      (by decide) (by decide)).2

theorem cell_updCell (g : CellGrid) (i j : Nat)
    (f : DiscreteDatum → DiscreteDatum)
    (hi : i < g.length) (hj : j < (g.getD i []).length) :
    DiscreteMatrix.cell (DiscreteMatrix.updCell g i j f) i j =
      f (DiscreteMatrix.cell g i j) := by
  have hgi : g[i]? = some (g.getD i []) := by
    rw [List.getD_eq_getElem?_getD, List.getElem?_eq_getElem hi]
    rfl
  have hrj : (g.getD i [])[j]? =
      some ((g.getD i []).getD j DiscreteDatum.init) := by
    rw [List.getD_eq_getElem?_getD (g.getD i []) j, List.getElem?_eq_getElem hj]
    rfl
  unfold DiscreteMatrix.cell DiscreteMatrix.updCell
  have h1 : (List.modify (fun row => List.modify f j row) i g).getD i [] =
      List.modify f j (g.getD i []) := by
    rw [List.getD_eq_getElem?_getD, List.getElem?_modify, hgi]
    simp
  rw [h1]
  rw [List.getD_eq_getElem?_getD, List.getElem?_modify, hrj]
  simp

/-- **C3** (round trip of the cell encoding).  For a valid cell `(i, j)`
and a state code `k` with `0 ≤ k < length symbols`: after
`DiscreteMatrix::SetState` stores `k` as the single state,
`CharactersBlock::GetState` decodes exactly `symbols[k]`; and a cell set
to Missing (resp. Gap) has state count 0, satisfies exactly the
missing (resp. gap) predicate, is not polymorphic, and never decodes to a
numeric state (`DiscreteMatrix::GetState`'s assertions fail, modelled as
`none`). -/
theorem cell_encoding_roundtrip (symbols : List Char) (g : CellGrid)
    (i j k : Nat) (hi : i < g.length) (hj : j < (g.getD i []).length)
    (hk : k < symbols.length) :
    (CharactersBlock.GetState symbols (DiscreteMatrix.SetState g i j (k : Int)) i j 0 =
        some (symbols.get ⟨k, hk⟩)) ∧
    (DiscreteMatrix.GetNumStatesD
        (DiscreteMatrix.cell (DiscreteMatrix.SetMissing g i j) i j) = 0 ∧
      DiscreteMatrix.IsMissingD
        (DiscreteMatrix.cell (DiscreteMatrix.SetMissing g i j) i j) = true ∧
      DiscreteMatrix.IsGapD
        (DiscreteMatrix.cell (DiscreteMatrix.SetMissing g i j) i j) = false ∧
      DiscreteMatrix.IsPolymorphicD
        (DiscreteMatrix.cell (DiscreteMatrix.SetMissing g i j) i j) = false ∧
      DiscreteMatrix.GetState (DiscreteMatrix.SetMissing g i j) i j 0 = none) ∧
    (DiscreteMatrix.GetNumStatesD
        (DiscreteMatrix.cell (DiscreteMatrix.SetGap g i j) i j) = 0 ∧
      DiscreteMatrix.IsGapD
        (DiscreteMatrix.cell (DiscreteMatrix.SetGap g i j) i j) = true ∧
      DiscreteMatrix.IsMissingD
        (DiscreteMatrix.cell (DiscreteMatrix.SetGap g i j) i j) = false ∧
      DiscreteMatrix.IsPolymorphicD
        (DiscreteMatrix.cell (DiscreteMatrix.SetGap g i j) i j) = false ∧
      DiscreteMatrix.GetState (DiscreteMatrix.SetGap g i j) i j 0 = none) := by
  have hset := cell_updCell g i j (fun d => DiscreteMatrix.SetStateD d (k : Int)) hi hj
  have hmis := cell_updCell g i j DiscreteMatrix.SetMissingD hi hj
  have hgap := cell_updCell g i j DiscreteMatrix.SetGapD hi hj
  refine ⟨?_, ?_, ?_⟩
  · unfold CharactersBlock.GetState DiscreteMatrix.GetState DiscreteMatrix.SetState
    rw [hset]
    have hstate : DiscreteMatrix.GetStateD
        (DiscreteMatrix.SetStateD (DiscreteMatrix.cell g i j) (k : Int)) 0 =
        some (k : Int) := by
      simp [DiscreteMatrix.GetStateD, DiscreteMatrix.SetStateD,
        DiscreteMatrix.IsGapD, List.getI]
    rw [hstate]
    have hklt : (k : Int) < (symbols.length : Int) := by exact_mod_cast hk
    dsimp only
    rw [if_pos hklt]
    rw [dif_pos ⟨Int.natCast_nonneg k, by simpa using hk⟩]
    congr 1
  · unfold DiscreteMatrix.GetState DiscreteMatrix.SetMissing
    rw [hmis]
    refine ⟨rfl, rfl, rfl, rfl, rfl⟩
  · unfold DiscreteMatrix.GetState DiscreteMatrix.SetGap
    rw [hgap]
    refine ⟨rfl, rfl, rfl, rfl, rfl⟩

/-- Witness for `cell_encoding_roundtrip`: a 2×2 grid with symbols `"01"`,
cell `(0, 1)`, state code 1. -/
theorem cell_encoding_roundtrip_witness :
    CharactersBlock.GetState ['0', '1']
      (DiscreteMatrix.SetState (DiscreteMatrix.mkGrid 2 2) 0 1 1) 0 1 0 =
      some '1' :=
  (cell_encoding_roundtrip ['0', '1'] (DiscreteMatrix.mkGrid 2 2) 0 1 1
    (by decide) (by decide) (by decide)).1

/-! ## CharactersBlock::ApplyExset / ApplyIncludeset / ApplyDelset /
ApplyRestoreset (charactersblock.cpp, lines 382-508)

Each walks the supplied set of original indices, maps each through the
position array (`charPos` for characters, `taxonPos` for taxa), skips the
removed sentinel (`k < 0`), counts entries whose active flag actually
changes, and writes the flag.  The position array is modelled as a
function `Nat → Int`, the active array as `List Bool`. -/

def ApplyExset (charPos : Nat → Int) : List Nat → List Bool → Nat × List Bool
  | [], activeChar => (0, activeChar)
  | i :: rest, activeChar =>
      if charPos i < 0 then ApplyExset charPos rest activeChar
      else
        ((if activeChar.getD (charPos i).toNat false then 1 else 0) +
            (ApplyExset charPos rest (activeChar.set (charPos i).toNat false)).1,
          (ApplyExset charPos rest (activeChar.set (charPos i).toNat false)).2)

def ApplyIncludeset (charPos : Nat → Int) : List Nat → List Bool → Nat × List Bool
  | [], activeChar => (0, activeChar)
  | i :: rest, activeChar =>
      if charPos i < 0 then ApplyIncludeset charPos rest activeChar
      else
        ((if activeChar.getD (charPos i).toNat false then 0 else 1) +
            (ApplyIncludeset charPos rest (activeChar.set (charPos i).toNat true)).1,
          (ApplyIncludeset charPos rest (activeChar.set (charPos i).toNat true)).2)

def ApplyDelset (taxonPos : Nat → Int) : List Nat → List Bool → Nat × List Bool
  | [], activeTaxon => (0, activeTaxon)
  | i :: rest, activeTaxon =>
      if taxonPos i < 0 then ApplyDelset taxonPos rest activeTaxon
      else
        ((if activeTaxon.getD (taxonPos i).toNat false then 1 else 0) +
            (ApplyDelset taxonPos rest (activeTaxon.set (taxonPos i).toNat false)).1,
          (ApplyDelset taxonPos rest (activeTaxon.set (taxonPos i).toNat false)).2)

def ApplyRestoreset (taxonPos : Nat → Int) : List Nat → List Bool → Nat × List Bool
  | [], activeTaxon => (0, activeTaxon)
  | i :: rest, activeTaxon =>
      if taxonPos i < 0 then ApplyRestoreset taxonPos rest activeTaxon
      else
        ((if activeTaxon.getD (taxonPos i).toNat false then 0 else 1) +
            (ApplyRestoreset taxonPos rest (activeTaxon.set (taxonPos i).toNat true)).1,
          (ApplyRestoreset taxonPos rest (activeTaxon.set (taxonPos i).toNat true)).2)

/-- Number of positions whose flag differs between two active arrays. -/
def changedCount (before after : List Bool) : Nat :=
  (List.range before.length).countP
    (fun m => !(before.getD m false == after.getD m false))

theorem countP_split {α : Type} (l : List α) (f g h : α → Bool)
    (hfg : ∀ m ∈ l, f m = (g m || h m) ∧ ¬(g m = true ∧ h m = true)) :
    l.countP f = l.countP g + l.countP h := by
  induction l with
  | nil => simp
  | cons x xs ih =>
      simp only [List.countP_cons]
      have hx := hfg x (by simp)
      have hxs : ∀ m ∈ xs, f m = (g m || h m) ∧ ¬(g m = true ∧ h m = true) :=
        fun m hm => hfg m (by simp [hm])
      rw [ih hxs]
      have h1 := hx.1
      have h2 := hx.2
      cases hgx : g x <;> cases hhx : h x
      · rw [hgx, hhx] at h1
        simp only [Bool.or_self] at h1
        simp [h1]
      · rw [hgx, hhx] at h1
        simp only [Bool.or_true] at h1
        simp [h1]
        omega
      · rw [hgx, hhx] at h1
        simp only [Bool.true_or] at h1
        simp [h1]
        omega
      · rw [hgx, hhx] at h2
        simp at h2

theorem countP_range_single (n k : Nat) (c : Bool) (p : Nat → Bool)
    (hp : ∀ m, p m = ((m == k) && c)) :
    (List.range n).countP p = if k < n ∧ c = true then 1 else 0 := by
  induction n with
  | zero => simp
  | succ n ih =>
      rw [List.range_succ, List.countP_append, ih]
      simp only [List.countP_cons, List.countP_nil, hp n]
      by_cases hkn : k = n
      · subst hkn
        cases c <;> simp
      · have : (n == k) = false := by simp [Ne.symm hkn]
        rw [this]
        simp only [Bool.false_and]
        by_cases hlt : k < n
        · have : k < n + 1 := by omega
          simp [hlt, this]
        · have : ¬(k < n + 1) := by omega
          simp [hlt, this]

theorem getD_ext (l1 l2 : List Bool) (hlen : l1.length = l2.length)
    (h : ∀ m, l1.getD m false = l2.getD m false) : l1 = l2 := by
  apply List.ext_getElem hlen
  intro n h1 h2
  have hn := h n
  rw [List.getD_eq_getElem?_getD, List.getD_eq_getElem?_getD,
    List.getElem?_eq_getElem h1, List.getElem?_eq_getElem h2] at hn
  simpa using hn

theorem ApplyExset_length (cp : Nat → Int) :
    ∀ (l : List Nat) (a : List Bool), ((ApplyExset cp l a).2).length = a.length := by
  intro l
  induction l with
  | nil => intro a; rfl
  | cons i rest ih =>
      intro a
      simp only [ApplyExset]
      by_cases hk : cp i < 0
      · rw [if_pos hk]; exact ih a
      · rw [if_neg hk]
        rw [ih (a.set (cp i).toNat false), List.length_set]

theorem ApplyExset_getD (cp : Nat → Int) :
    ∀ (l : List Nat) (a : List Bool) (m : Nat),
      (ApplyExset cp l a).2.getD m false =
        (a.getD m false && !(l.any (fun i => cp i == (m : Int)))) := by
  intro l
  induction l with
  | nil => intro a m; simp [ApplyExset]
  | cons i rest ih =>
      intro a m
      simp only [ApplyExset]
      by_cases hk : cp i < 0
      · rw [if_pos hk, ih a m]
        have hbe : (cp i == (m : Int)) = false := by
          rw [beq_eq_false_iff_ne]
          intro h
          omega
        simp [hbe]
      · rw [if_neg hk]
        rw [ih (a.set (cp i).toNat false) m]
        by_cases he : cp i = (m : Int)
        · have hbe : (cp i == (m : Int)) = true := by rw [beq_iff_eq]; exact he
          have htn : (cp i).toNat = m := by omega
          rw [htn]
          have hset : (a.set m false).getD m false = false := by
            rw [List.getD_eq_getElem?_getD, List.getElem?_set]
            by_cases hm : m < a.length
            · simp [hm]
            · simp only [if_pos rfl, if_neg hm]
              rfl
          rw [hset]
          simp [hbe]
        · have hbe : (cp i == (m : Int)) = false := by
            rw [beq_eq_false_iff_ne]; exact he
          have htn : (cp i).toNat ≠ m := by omega
          have hset : (a.set (cp i).toNat false).getD m false = a.getD m false := by
            rw [List.getD_eq_getElem?_getD, List.getElem?_set, if_neg htn,
              ← List.getD_eq_getElem?_getD]
          rw [hset]
          simp [hbe]

theorem ApplyExset_count (cp : Nat → Int) :
    ∀ (l : List Nat) (a : List Bool),
      (ApplyExset cp l a).1 =
        (List.range a.length).countP
          (fun m => a.getD m false && l.any (fun i => cp i == (m : Int))) := by
  intro l
  induction l with
  | nil => intro a; simp [ApplyExset]
  | cons i rest ih =>
      intro a
      simp only [ApplyExset]
      by_cases hk : cp i < 0
      · rw [if_pos hk, ih a]
        apply List.countP_congr
        intro m _
        have hbe : (cp i == (m : Int)) = false := by
          rw [beq_eq_false_iff_ne]
          intro h
          omega
        simp [hbe]
      · rw [if_neg hk]
        have hsetD : ∀ m : Nat, (a.set (cp i).toNat false).getD m false =
            (a.getD m false && !(cp i == (m : Int))) := by
          intro m
          by_cases he : cp i = (m : Int)
          · have hbe : (cp i == (m : Int)) = true := by rw [beq_iff_eq]; exact he
            have htn : (cp i).toNat = m := by omega
            rw [htn]
            have : (a.set m false).getD m false = false := by
              rw [List.getD_eq_getElem?_getD, List.getElem?_set]
              by_cases hm : m < a.length
              · simp [hm]
              · simp only [if_pos rfl, if_neg hm]
                rfl
            rw [this]
            simp [hbe]
          · have hbe : (cp i == (m : Int)) = false := by
              rw [beq_eq_false_iff_ne]; exact he
            have htn : (cp i).toNat ≠ m := by omega
            rw [List.getD_eq_getElem?_getD, List.getElem?_set, if_neg htn,
              ← List.getD_eq_getElem?_getD]
            simp [hbe]
        rw [ih (a.set (cp i).toNat false), List.length_set]
        have hp : ∀ m : Nat, (a.getD m false && (cp i == (m : Int))) =
            ((m == (cp i).toNat) && a.getD (cp i).toNat false) := by
          intro m
          by_cases he : m = (cp i).toNat
          · subst he
            have h1 : (cp i == (((cp i).toNat : Nat) : Int)) = true :=
              beq_iff_eq.mpr (by omega)
            rw [h1, beq_self_eq_true, Bool.and_true, Bool.true_and]
          · have h1 : (cp i == (m : Int)) = false :=
              beq_eq_false_iff_ne.mpr (fun h => he (by omega))
            have h2 : (m == (cp i).toNat) = false := by
              rw [beq_eq_false_iff_ne]; exact he
            rw [h1, h2, Bool.and_false, Bool.false_and]
        have hsingle := countP_range_single a.length (cp i).toNat
          (a.getD (cp i).toNat false)
          (fun m => a.getD m false && (cp i == (m : Int))) hp
        have hsplit := countP_split (List.range a.length)
          (fun m => a.getD m false && (i :: rest).any (fun i2 => cp i2 == (m : Int)))
          (fun m => a.getD m false && (cp i == (m : Int)))
          (fun m => (a.set (cp i).toNat false).getD m false &&
            rest.any (fun i2 => cp i2 == (m : Int))) ?_
        · rw [hsplit, hsingle]
          by_cases hkl : (cp i).toNat < a.length
          · by_cases hc : a.getD (cp i).toNat false = true
            · rw [hc, if_pos rfl, if_pos ⟨hkl, rfl⟩]
            · rw [if_neg hc]
              rw [eq_false_of_ne_true hc]
              rw [if_neg (by simp)]
          · have hoob : a.getD (cp i).toNat false = false := by
              rw [List.getD_eq_getElem?_getD, List.getElem?_eq_none (by omega)]
              rfl
            rw [hoob, if_neg (by simp), if_neg (by simp [hkl])]
        · intro m _
          dsimp only
          rw [List.any_cons, hsetD m]
          refine ⟨?_, ?_⟩
          · generalize a.getD m false = bA
            generalize (cp i == (m : Int)) = bC
            generalize rest.any (fun i2 => cp i2 == (m : Int)) = bR
            cases bA <;> cases bC <;> cases bR <;> decide
          · generalize a.getD m false = bA
            generalize (cp i == (m : Int)) = bC
            generalize rest.any (fun i2 => cp i2 == (m : Int)) = bR
            cases bA <;> cases bC <;> cases bR <;> decide

theorem ApplyIncludeset_length (cp : Nat → Int) :
    ∀ (l : List Nat) (a : List Bool),
      ((ApplyIncludeset cp l a).2).length = a.length := by
  intro l
  induction l with
  | nil => intro a; rfl
  | cons i rest ih =>
      intro a
      simp only [ApplyIncludeset]
      by_cases hk : cp i < 0
      · rw [if_pos hk]; exact ih a
      · rw [if_neg hk]
        rw [ih (a.set (cp i).toNat true), List.length_set]

theorem ApplyIncludeset_getD (cp : Nat → Int) :
    ∀ (l : List Nat) (a : List Bool) (m : Nat),
      (∀ i ∈ l, cp i < (a.length : Int)) →
      (ApplyIncludeset cp l a).2.getD m false =
        (a.getD m false || l.any (fun i => cp i == (m : Int))) := by
  intro l
  induction l with
  | nil => intro a m _; simp [ApplyIncludeset]
  | cons i rest ih =>
      intro a m hb
      simp only [ApplyIncludeset]
      by_cases hk : cp i < 0
      · rw [if_pos hk, ih a m (fun i2 h2 => hb i2 (by simp [h2]))]
        have hbe : (cp i == (m : Int)) = false := by
          rw [beq_eq_false_iff_ne]
          intro h
          omega
        simp [hbe]
      · rw [if_neg hk]
        have hb2 : ∀ i2 ∈ rest, cp i2 < ((a.set (cp i).toNat true).length : Int) := by
          intro i2 h2
          rw [List.length_set]
          exact hb i2 (by simp [h2])
        rw [ih (a.set (cp i).toNat true) m hb2]
        have hbi := hb i (by simp)
        by_cases he : cp i = (m : Int)
        · have hbe : (cp i == (m : Int)) = true := by rw [beq_iff_eq]; exact he
          have htn : (cp i).toNat = m := by omega
          have hml : m < a.length := by omega
          rw [htn]
          have hset : (a.set m true).getD m false = true := by
            rw [List.getD_eq_getElem?_getD, List.getElem?_set, if_pos rfl,
              if_pos hml]
            rfl
          rw [hset]
          simp [hbe]
        · have hbe : (cp i == (m : Int)) = false := by
            rw [beq_eq_false_iff_ne]; exact he
          have htn : (cp i).toNat ≠ m := by omega
          have hset : (a.set (cp i).toNat true).getD m false = a.getD m false := by
            rw [List.getD_eq_getElem?_getD, List.getElem?_set, if_neg htn,
              ← List.getD_eq_getElem?_getD]
          rw [hset]
          simp [hbe]

theorem ApplyIncludeset_count (cp : Nat → Int) :
    ∀ (l : List Nat) (a : List Bool),
      (∀ i ∈ l, cp i < (a.length : Int)) →
      (ApplyIncludeset cp l a).1 =
        (List.range a.length).countP
          (fun m => !(a.getD m false) && l.any (fun i => cp i == (m : Int))) := by
  intro l
  induction l with
  | nil => intro a _; simp [ApplyIncludeset]
  | cons i rest ih =>
      intro a hb
      simp only [ApplyIncludeset]
      by_cases hk : cp i < 0
      · rw [if_pos hk, ih a (fun i2 h2 => hb i2 (by simp [h2]))]
        apply List.countP_congr
        intro m _
        have hbe : (cp i == (m : Int)) = false := by
          rw [beq_eq_false_iff_ne]
          intro h
          omega
        simp [hbe]
      · rw [if_neg hk]
        have hbi := hb i (by simp)
        have hkl : (cp i).toNat < a.length := by omega
        have hsetD : ∀ m : Nat, (a.set (cp i).toNat true).getD m false =
            (a.getD m false || (cp i == (m : Int))) := by
          intro m
          by_cases he : cp i = (m : Int)
          · have hbe : (cp i == (m : Int)) = true := by rw [beq_iff_eq]; exact he
            have htn : (cp i).toNat = m := by omega
            have hml : m < a.length := by omega
            rw [htn]
            rw [List.getD_eq_getElem?_getD, List.getElem?_set, if_pos rfl,
              if_pos hml]
            simp [hbe]
          · have hbe : (cp i == (m : Int)) = false := by
              rw [beq_eq_false_iff_ne]; exact he
            have htn : (cp i).toNat ≠ m := by omega
            rw [List.getD_eq_getElem?_getD, List.getElem?_set, if_neg htn,
              ← List.getD_eq_getElem?_getD]
            simp [hbe]
        have hb2 : ∀ i2 ∈ rest, cp i2 < ((a.set (cp i).toNat true).length : Int) := by
          intro i2 h2
          rw [List.length_set]
          exact hb i2 (by simp [h2])
        rw [ih (a.set (cp i).toNat true) hb2, List.length_set]
        have hp : ∀ m : Nat, (!(a.getD m false) && (cp i == (m : Int))) =
            ((m == (cp i).toNat) && !(a.getD (cp i).toNat false)) := by
          intro m
          by_cases he : m = (cp i).toNat
          · subst he
            have h1 : (cp i == (((cp i).toNat : Nat) : Int)) = true :=
              beq_iff_eq.mpr (by omega)
            rw [h1, beq_self_eq_true, Bool.and_true, Bool.true_and]
          · have h1 : (cp i == (m : Int)) = false :=
              beq_eq_false_iff_ne.mpr (fun h => he (by omega))
            have h2 : (m == (cp i).toNat) = false := by
              rw [beq_eq_false_iff_ne]; exact he
            rw [h1, h2, Bool.and_false, Bool.false_and]
        have hsingle := countP_range_single a.length (cp i).toNat
          (!(a.getD (cp i).toNat false))
          (fun m => !(a.getD m false) && (cp i == (m : Int))) hp
        have hsplit := countP_split (List.range a.length)
          (fun m => !(a.getD m false) && (i :: rest).any (fun i2 => cp i2 == (m : Int)))
          (fun m => !(a.getD m false) && (cp i == (m : Int)))
          (fun m => !((a.set (cp i).toNat true).getD m false) &&
            rest.any (fun i2 => cp i2 == (m : Int))) ?_
        · rw [hsplit, hsingle]
          by_cases hc : a.getD (cp i).toNat false = true
          · rw [hc, if_pos rfl]
            rw [if_neg (by simp)]
          · rw [if_neg hc, eq_false_of_ne_true hc]
            rw [if_pos ⟨hkl, rfl⟩]
        · intro m _
          dsimp only
          rw [List.any_cons, hsetD m]
          refine ⟨?_, ?_⟩
          · generalize a.getD m false = bA
            generalize (cp i == (m : Int)) = bC
            generalize rest.any (fun i2 => cp i2 == (m : Int)) = bR
            cases bA <;> cases bC <;> cases bR <;> decide
          · generalize a.getD m false = bA
            generalize (cp i == (m : Int)) = bC
            generalize rest.any (fun i2 => cp i2 == (m : Int)) = bR
            cases bA <;> cases bC <;> cases bR <;> decide

theorem ApplyDelset_eq (tp : Nat → Int) :
    ∀ (l : List Nat) (a : List Bool), ApplyDelset tp l a = ApplyExset tp l a := by
  intro l
  induction l with
  | nil => intro a; rfl
  | cons i rest ih =>
      intro a
      simp only [ApplyDelset, ApplyExset]
      by_cases hk : tp i < 0
      · rw [if_pos hk, if_pos hk, ih a]
      · rw [if_neg hk, if_neg hk, ih (a.set (tp i).toNat false)]

theorem ApplyRestoreset_eq (tp : Nat → Int) :
    ∀ (l : List Nat) (a : List Bool), ApplyRestoreset tp l a = ApplyIncludeset tp l a := by
  intro l
  induction l with
  | nil => intro a; rfl
  | cons i rest ih =>
      intro a
      simp only [ApplyRestoreset, ApplyIncludeset]
      by_cases hk : tp i < 0
      · rw [if_pos hk, if_pos hk, ih a]
      · rw [if_neg hk, if_neg hk, ih (a.set (tp i).toNat true)]

theorem exset_changed (cp : Nat → Int) (l : List Nat) (a : List Bool) :
    (ApplyExset cp l a).1 = changedCount a (ApplyExset cp l a).2 := by
  rw [ApplyExset_count]
  unfold changedCount
  apply List.countP_congr
  intro m _
  rw [ApplyExset_getD]
  generalize a.getD m false = bA
  generalize (l.any fun i => cp i == (m : Int)) = bH
  cases bA <;> cases bH <;> decide

theorem exset_idem (cp : Nat → Int) (l : List Nat) (a : List Bool) :
    ApplyExset cp l ((ApplyExset cp l a).2) = (0, (ApplyExset cp l a).2) := by
  have h1 : (ApplyExset cp l ((ApplyExset cp l a).2)).1 = 0 := by
    rw [ApplyExset_count]
    rw [List.countP_eq_zero]
    intro m _
    rw [ApplyExset_getD]
    generalize a.getD m false = bA
    generalize (l.any fun i => cp i == (m : Int)) = bH
    cases bA <;> cases bH <;> decide
  have h2 : (ApplyExset cp l ((ApplyExset cp l a).2)).2 = (ApplyExset cp l a).2 := by
    apply getD_ext
    · rw [ApplyExset_length]
    · intro m
      rw [ApplyExset_getD, ApplyExset_getD]
      generalize a.getD m false = bA
      generalize (l.any fun i => cp i == (m : Int)) = bH
      cases bA <;> cases bH <;> decide
  rw [Prod.ext_iff]
  exact ⟨h1, h2⟩

theorem includeset_changed (cp : Nat → Int) (l : List Nat) (a : List Bool)
    (hb : ∀ i ∈ l, cp i < (a.length : Int)) :
    (ApplyIncludeset cp l a).1 = changedCount a (ApplyIncludeset cp l a).2 := by
  rw [ApplyIncludeset_count cp l a hb]
  unfold changedCount
  apply List.countP_congr
  intro m _
  rw [ApplyIncludeset_getD cp l a m hb]
  generalize a.getD m false = bA
  generalize (l.any fun i => cp i == (m : Int)) = bH
  cases bA <;> cases bH <;> decide

theorem includeset_idem (cp : Nat → Int) (l : List Nat) (a : List Bool)
    (hb : ∀ i ∈ l, cp i < (a.length : Int)) :
    ApplyIncludeset cp l ((ApplyIncludeset cp l a).2) =
      (0, (ApplyIncludeset cp l a).2) := by
  have hb2 : ∀ i ∈ l, cp i < (((ApplyIncludeset cp l a).2).length : Int) := by
    intro i hi
    rw [ApplyIncludeset_length]
    exact hb i hi
  have h1 : (ApplyIncludeset cp l ((ApplyIncludeset cp l a).2)).1 = 0 := by
    rw [ApplyIncludeset_count cp l _ hb2]
    rw [List.countP_eq_zero]
    intro m _
    rw [ApplyIncludeset_getD cp l a m hb]
    generalize a.getD m false = bA
    generalize (l.any fun i => cp i == (m : Int)) = bH
    cases bA <;> cases bH <;> decide
  have h2 : (ApplyIncludeset cp l ((ApplyIncludeset cp l a).2)).2 =
      (ApplyIncludeset cp l a).2 := by
    apply getD_ext
    · rw [ApplyIncludeset_length]
    · intro m
      rw [ApplyIncludeset_getD cp l _ m hb2, ApplyIncludeset_getD cp l a m hb]
      generalize a.getD m false = bA
      generalize (l.any fun i => cp i == (m : Int)) = bH
      cases bA <;> cases bH <;> decide
  rw [Prod.ext_iff]
  exact ⟨h1, h2⟩

/-- **C5** (idempotence and change counting of activation toggles).  Each of
`ApplyExset`, `ApplyIncludeset`, `ApplyDelset`, `ApplyRestoreset` returns
exactly the number of active-flag entries that actually flipped
(already-toggled entries are no-ops and not counted), and re-applying the
same set returns a changed-count of 0 and leaves the active array
unchanged — in particular, excluding already-excluded characters (or
restoring already-restored taxa, etc.) changes nothing.  The include and
restore parts assume the mapped current indices are in range of the
active array, which `HandleMatrix` guarantees by construction. -/
theorem apply_toggle_change_counts (cp tp : Nat → Int)
    (exset inset delset rset : List Nat)
    (activeChar activeTaxon : List Bool)
    (hin : ∀ i ∈ inset, cp i < (activeChar.length : Int))
    (hrs : ∀ i ∈ rset, tp i < (activeTaxon.length : Int)) :
    ((ApplyExset cp exset activeChar).1 =
        changedCount activeChar (ApplyExset cp exset activeChar).2 ∧
      ApplyExset cp exset (ApplyExset cp exset activeChar).2 =
        (0, (ApplyExset cp exset activeChar).2)) ∧
    ((ApplyIncludeset cp inset activeChar).1 =
        changedCount activeChar (ApplyIncludeset cp inset activeChar).2 ∧
      ApplyIncludeset cp inset (ApplyIncludeset cp inset activeChar).2 =
        (0, (ApplyIncludeset cp inset activeChar).2)) ∧
    ((ApplyDelset tp delset activeTaxon).1 =
        changedCount activeTaxon (ApplyDelset tp delset activeTaxon).2 ∧
      ApplyDelset tp delset (ApplyDelset tp delset activeTaxon).2 =
        (0, (ApplyDelset tp delset activeTaxon).2)) ∧
    ((ApplyRestoreset tp rset activeTaxon).1 =
        changedCount activeTaxon (ApplyRestoreset tp rset activeTaxon).2 ∧
      ApplyRestoreset tp rset (ApplyRestoreset tp rset activeTaxon).2 =
        (0, (ApplyRestoreset tp rset activeTaxon).2)) := by
  refine ⟨⟨exset_changed cp exset activeChar, exset_idem cp exset activeChar⟩,
    ⟨includeset_changed cp inset activeChar hin,
      includeset_idem cp inset activeChar hin⟩, ?_, ?_⟩
  · simp only [ApplyDelset_eq]
    exact ⟨exset_changed tp delset activeTaxon, exset_idem tp delset activeTaxon⟩
  · simp only [ApplyRestoreset_eq]
    exact ⟨includeset_changed tp rset activeTaxon hrs,
      includeset_idem tp rset activeTaxon hrs⟩

/-- Witness for `apply_toggle_change_counts`: `charPos = [0,-1,1]`,
`taxonPos` identity on 2 taxa, exclude `{0, 1}`, include `{2}`, delete
`{1}`, restore `{0}` over concrete active arrays. -/
theorem apply_toggle_change_counts_witness :
    ((ApplyExset (fun i => [0, -1, 1].getI i) [0, 1] [true, true]).1 =
        changedCount [true, true]
          (ApplyExset (fun i => [0, -1, 1].getI i) [0, 1] [true, true]).2) ∧
    (ApplyIncludeset (fun i => [0, -1, 1].getI i) [2]
        (ApplyIncludeset (fun i => [0, -1, 1].getI i) [2] [false, false]).2 =
      (0, (ApplyIncludeset (fun i => [0, -1, 1].getI i) [2] [false, false]).2)) := by
  constructor
  · exact (apply_toggle_change_counts (fun i => [0, -1, 1].getI i)
      (fun i => (i : Int)) [0, 1] [2] [] [] [true, true] [true]
      (by decide) (by decide)).1.1
  · exact (apply_toggle_change_counts (fun i => [0, -1, 1].getI i)
      (fun i => (i : Int)) [] [2] [] [] [false, false] [true]
      (by decide) (by decide)).2.1.2

/-! ## CharactersBlock::HandleEliminate and HandleCharlabels
(charactersblock.cpp, lines 1308-1345 and 1593-1615)

The per-section state relevant to the ELIMINATE ordering checks.  Errors
carry the message of the thrown `XNexus` exception (the source also tags it
with the current token position). -/

structure CharSectionSt where
  charLabels : List String
  charStates : List (Nat × List String)
  charPos : Option (List Int)
  nchar : Nat
  ncharTotal : Nat
  eliminated : List Nat
  deriving Repr, DecidableEq

/-- `CharactersBlock::HandleEliminate`, after `SetReader(...).Run()` has
parsed the range into `elimSet`:

```cpp
nchar = ncharTotal - eliminated.size();
if( nchar != ncharTotal && ( charLabels.size() > 0 || charStates.size() > 0 ) )
    throw XNexus("The ELIMINATE command must appear before ...");
if( charPos != NULL )
    throw XNexus("Only one ELIMINATE command is allowed, ...");
BuildCharPosArray( true );
``` -/
def HandleEliminate (elimSet : List Nat) (s : CharSectionSt) :
    Except String CharSectionSt :=
  let s1 : CharSectionSt :=
    { s with eliminated := elimSet, nchar := s.ncharTotal - elimSet.length }
  if s1.nchar ≠ s1.ncharTotal ∧
      (s1.charLabels.length > 0 ∨ s1.charStates.length > 0) then
    .error "The ELIMINATE command must appear before character\n(or character state) labels are specified"
  else if s1.charPos ≠ none then
    .error "Only one ELIMINATE command is allowed, and it must appear before the MATRIX command"
  else
    .ok { s1 with
      charPos := some (BuildCharPosArray true s1.ncharTotal elimSet) }

/-- The token loop of `HandleCharlabels`: counts labels read, errors when
more labels than `ncharTotal` arrive, and stores only labels of
non-eliminated characters. -/
def charlabelsLoop (ncharTotal : Nat) (eliminated : List Nat) :
    List String → Nat → List String → Except String (List String)
  | [], _, acc => .ok acc
  | t :: rest, numRead, acc =>
      if numRead + 1 > ncharTotal then
        .error "Number of character labels exceeds NCHAR specified in DIMENSIONS command"
      else if eliminated.contains (numRead + 1 - 1) then
        charlabelsLoop ncharTotal eliminated rest (numRead + 1) acc
      else
        charlabelsLoop ncharTotal eliminated rest (numRead + 1) (acc ++ [t])

/-- `CharactersBlock::HandleCharlabels` over the list of label tokens read
before the terminating semicolon: flushes `charLabels`, lazily builds the
identity `charPos` (`BuildCharPosArray()` with `check_eliminated = false`),
then runs the label loop. -/
def HandleCharlabels (labelTokens : List String) (s : CharSectionSt) :
    Except String CharSectionSt :=
  let s0 : CharSectionSt := { s with charLabels := [] }
  let s1 : CharSectionSt :=
    if s0.charPos = none then
      { s0 with
        charPos := some (BuildCharPosArray false s0.ncharTotal s0.eliminated) }
    else s0
  match charlabelsLoop s.ncharTotal s.eliminated labelTokens 0 [] with
  | .error e => .error e
  | .ok lbls => .ok { s1 with charLabels := lbls }

theorem HandleCharlabels_charPos (lbls : List String) (s s' : CharSectionSt)
    (h : HandleCharlabels lbls s = .ok s') : s'.charPos ≠ none := by
  unfold HandleCharlabels at h
  cases hloop : charlabelsLoop s.ncharTotal s.eliminated lbls 0 [] with
  | error e => rw [hloop] at h; exact absurd h (by simp)
  | ok res =>
      rw [hloop] at h
      simp only [Except.ok.injEq] at h
      subst h
      by_cases hcp : s.charPos = none
      · simp [hcp]
      · simp [hcp]

theorem HandleEliminate_charPos (elim : List Nat) (s s1 : CharSectionSt)
    (h : HandleEliminate elim s = .ok s1) : s1.charPos ≠ none := by
  unfold HandleEliminate at h
  by_cases h1 : (s.ncharTotal - elim.length ≠ s.ncharTotal ∧
      (s.charLabels.length > 0 ∨ s.charStates.length > 0))
  · rw [if_pos h1] at h
    exact absurd h (by simp)
  · rw [if_neg h1] at h
    by_cases h2 : s.charPos ≠ none
    · rw [if_pos h2] at h
      exact absurd h (by simp)
    · rw [if_neg h2] at h
      simp only [Except.ok.injEq] at h
      subst h
      simp

theorem HandleEliminate_error_of_charPos (elim : List Nat) (s : CharSectionSt)
    (h : s.charPos ≠ none) : ∃ e, HandleEliminate elim s = .error e := by
  unfold HandleEliminate
  by_cases h1 : (s.ncharTotal - elim.length ≠ s.ncharTotal ∧
      (s.charLabels.length > 0 ∨ s.charStates.length > 0))
  · exact ⟨_, by rw [if_pos h1]⟩
  · exact ⟨_, by rw [if_neg h1, if_pos h]⟩

/-- **C4** (elimination ordering).  Within one CHARACTERS-section read, an
ELIMINATE command issued after a CHARLABELS command raises an error (the
label command has forced `charPos` into existence, so one of the two
ordering checks in `HandleEliminate` fires), and a second ELIMINATE
command after a successful one likewise raises an error; a successful
ELIMINATE thus must precede label commands and can happen at most once. -/
theorem eliminate_ordering (s s' s1 : CharSectionSt) (lbls : List String)
    (elim1 elim2 : List Nat) :
    (HandleCharlabels lbls s = .ok s' →
      ∃ e, HandleEliminate elim1 s' = .error e) ∧
    (HandleEliminate elim1 s = .ok s1 →
      ∃ e, HandleEliminate elim2 s1 = .error e) := by
  constructor
  · intro h
    exact HandleEliminate_error_of_charPos elim1 s'
      (HandleCharlabels_charPos lbls s s' h)
  · intro h
    exact HandleEliminate_error_of_charPos elim2 s1
      (HandleEliminate_charPos elim1 s s1 h)

/-- Witness for `eliminate_ordering`: a fresh 3-character section; labels
`["a"]` then `ELIMINATE 1` errors, and `ELIMINATE 1` twice errors. -/
theorem eliminate_ordering_witness :
    (HandleCharlabels ["a"] ⟨[], [], none, 3, 3, []⟩ =
        .ok ⟨["a"], [], some [0, 1, 2], 3, 3, []⟩ ∧
      ∃ e, HandleEliminate [0] ⟨["a"], [], some [0, 1, 2], 3, 3, []⟩ =
        .error e) ∧
    (HandleEliminate [0] ⟨[], [], none, 3, 3, []⟩ =
        .ok ⟨[], [], some [-1, 0, 1], 2, 3, [0]⟩ ∧
      ∃ e, HandleEliminate [1] ⟨[], [], some [-1, 0, 1], 2, 3, [0]⟩ =
        .error e) := by
  refine ⟨⟨by rfl, ?_⟩, by rfl, ?_⟩
  · exact (eliminate_ordering ⟨[], [], none, 3, 3, []⟩
      ⟨["a"], [], some [0, 1, 2], 3, 3, []⟩ ⟨[], [], none, 3, 3, []⟩
      ["a"] [0] []).1 (by rfl)
  · exact (eliminate_ordering ⟨[], [], none, 3, 3, []⟩
      ⟨[], [], none, 3, 3, []⟩ ⟨[], [], some [-1, 0, 1], 2, 3, [0]⟩
      [] [0] [1]).2 (by rfl)

/-! ## SetReader (setreader.cpp)

`SetReader::Run` consumes tokens of the range-list mini-language and
accumulates a 0-based `IntSet` (here a `Finset Int`).  Tokens arrive from
the tokenizer as separate single-character punctuation (`-`, `\`, `;`,
`,`) and number/word tokens; `Equals` comparisons are case-insensitive. -/

/-- C `atoi`: optional sign, then the longest digit prefix (0 when the
string does not start with a digit). -/
def atoiLoop : List Char → Int → Int
  | [], acc => acc
  | c :: rest, acc =>
      if c.isDigit then atoiLoop rest (acc * 10 + ((c.toNat : Int) - 48))
      else acc

def atoi (s : String) : Int :=
  match s.data with
  | '-' :: rest => -(atoiLoop rest 0)
  | '+' :: rest => atoiLoop rest 0
  | l => atoiLoop l 0

/-- `NexusToken::Equals` with `respect_case = false`: char-by-char
upper-case comparison. -/
def strEqCI (a b : String) : Bool := a.data.map Char.toUpper == b.data.map Char.toUpper

/-- `CharactersBlock::CharLabelToNumber`: 1-based position of `s` in
`charLabels`, or 0 when absent. -/
def CharLabelToNumber (charLabels : List String) (s : String) : Int :=
  match charLabels.findIdx? (fun lbl => lbl == s) with
  | some i => 1 + (i : Int)
  | none => 0

/-- `SetReader::GetTokenValue` for `settype == charset`: `atoi`, then the
character-label lookup, then the "not a number" error. -/
def GetTokenValue (charLabels : List String) (tok : String) :
    Except String Int :=
  let v := atoi tok
  let v2 := if v = 0 then CharLabelToNumber charLabels tok else v
  if v2 = 0 then
    .error ("Set element (" ++ tok ++ ") not a number and not a valid character label")
  else .ok v2

/-- The insertion loop inside `SetReader::AddRange`:
`for (i = first-1; i < last; i++) { diff = i-first+1; if (modulus > 0 && diff % modulus != 0) continue; nxsset.insert(i); }`. -/
def addRangeLoop (modulus first : Int) : Nat → Int → Finset Int → Finset Int
  | 0, _, s => s
  | n + 1, i, s =>
      let diff := i - first + 1
      if modulus > 0 ∧ diff % modulus ≠ 0 then
        addRangeLoop modulus first n (i + 1) s
      else
        addRangeLoop modulus first n (i + 1) (insert i s)

/-- `SetReader::AddRange`: `none` models returning `false` (range rejected:
beyond `max`, below 1 or inverted). -/
def AddRange (maxV : Int) (nxsset : Finset Int) (first last : Int)
    (modulus : Int := 0) : Option (Finset Int) :=
  if last > maxV ∨ first < 1 ∨ first > last then none
  else some (addRangeLoop modulus first (last - (first - 1)).toNat (first - 1) nxsset)

/-- The state loop of `SetReader::Run`.  Each equation consumes the token
that `GetNextToken` would pull.  When tokens run out, `GetNextToken`
returns an empty token at end of file: every continuing path below then
raises (the branch taken on an empty token never matches `;`/`,`/`-`/...),
so the `[]` equations spell those paths out. -/
def SetReaderRunAux (maxV : Int) (charLabels : List String) :
    Nat → List String → Int → Int → Bool → Int → Finset Int →
    Except String (Bool × Finset Int)
  | 0, _, _, _, _, _, _ =>
      -- unreachable: the entry point supplies more fuel than tokens, and
      -- every recursive call consumes at least one token
      .error "end of input reached while reading set specification"
  | _ + 1, [], rangeBegin, rangeEnd, insideRange, modValue, nxsset =>
      if insideRange ∧ rangeEnd = -1 then
        match GetTokenValue charLabels "" with
        | .error e => .error e
        | .ok _ => .error "end of input reached while reading set specification"
      else if insideRange then
        match AddRange maxV nxsset rangeBegin rangeEnd modValue with
        | none => .error "Character number out of range (or range incorrectly specified) in set specification"
        | some _ =>
            match GetTokenValue charLabels "" with
            | .error e => .error e
            | .ok _ => .error "end of input reached while reading set specification"
      else if rangeBegin ≠ -1 then
        match AddRange maxV nxsset rangeBegin rangeBegin modValue with
        | none => .error "Character number out of range (or range incorrectly specified) in set specification"
        | some _ =>
            match GetTokenValue charLabels "" with
            | .error e => .error e
            | .ok _ => .error "end of input reached while reading set specification"
      else
        match GetTokenValue charLabels "" with
        | .error e => .error e
        | .ok _ => .error "end of input reached while reading set specification"
  | fuel + 1, tok :: rest, rangeBegin, rangeEnd, insideRange, modValue, nxsset =>
      if strEqCI tok "-" then
        if insideRange then .error "The symbol '-' is out of place here"
        else SetReaderRunAux maxV charLabels fuel rest rangeBegin rangeEnd true modValue nxsset
      else if strEqCI tok "." then
        if ¬insideRange then
          .error "The symbol '.' can only be used to specify the end of a range"
        else SetReaderRunAux maxV charLabels fuel rest rangeBegin maxV insideRange modValue nxsset
      else if strEqCI tok "\\" then
        if ¬insideRange then
          .error "The symbol '\\' can only be used after the end of a range has been specified"
        else
          match rest with
          | [] =>
              .error "The modulus value specified () is invalid; must be greater than 0"
          | mtok :: rest2 =>
              let mv := atoi mtok
              if mv ≤ 0 then
                .error ("The modulus value specified (" ++ mtok ++ ") is invalid; must be greater than 0")
              else SetReaderRunAux maxV charLabels fuel rest2 rangeBegin rangeEnd insideRange mv nxsset
      else if insideRange ∧ rangeEnd = -1 then
        match GetTokenValue charLabels tok with
        | .error e => .error e
        | .ok v => SetReaderRunAux maxV charLabels fuel rest rangeBegin v insideRange modValue nxsset
      else if insideRange then
        match AddRange maxV nxsset rangeBegin rangeEnd modValue with
        | none => .error "Character number out of range (or range incorrectly specified) in set specification"
        | some s' =>
            if strEqCI tok ";" then .ok (true, s')
            else if strEqCI tok "," then .ok (false, s')
            else
              match GetTokenValue charLabels tok with
              | .error e => .error e
              | .ok v => SetReaderRunAux maxV charLabels fuel rest v (-1) false modValue s'
      else if rangeBegin ≠ -1 then
        match AddRange maxV nxsset rangeBegin rangeBegin modValue with
        | none => .error "Character number out of range (or range incorrectly specified) in set specification"
        | some s' =>
            if strEqCI tok ";" then .ok (true, s')
            else if strEqCI tok "," then .ok (false, s')
            else
              match GetTokenValue charLabels tok with
              | .error e => .error e
              | .ok v => SetReaderRunAux maxV charLabels fuel rest v (-1) insideRange modValue s'
      else if strEqCI tok ";" then .ok (true, nxsset)
      else if strEqCI tok "," then .ok (false, nxsset)
      else if strEqCI tok "ALL" then
        SetReaderRunAux maxV charLabels fuel rest 1 maxV insideRange modValue
          ((AddRange maxV nxsset 1 maxV 0).getD nxsset)
      else
        match GetTokenValue charLabels tok with
        | .error e => .error e
        | .ok v => SetReaderRunAux maxV charLabels fuel rest v (-1) insideRange modValue nxsset

/-- `SetReader::Run` from the post-constructor state (`nxsset` flushed,
`rangeBegin = rangeEnd = -1`, `insideRange = false`, `modValue = 0`). -/
def SetReaderRun (maxV : Int) (charLabels : List String)
    (toks : List String) : Except String (Bool × Finset Int) :=
  SetReaderRunAux maxV charLabels (toks.length + 1) toks (-1) (-1) false 0 (∅ : Finset Int)

/-- **C6** (range-set parsing examples).  `"ALL"` with declared maximum 5
yields the 0-based set `{0,1,2,3,4}`; `"4-7 15 20-.\3"` (tokenized as the
tokenizer emits it) with maximum 30 yields `{3,4,5,6,14,19,22,25,28}`;
an inverted range (`7-4`) and an out-of-range one (`4-40` with max 30)
raise the out-of-range error (position-tagged in the source). -/
theorem range_set_parsing :
    SetReaderRun 5 [] ["ALL", ";"] =
      .ok (true, ({0, 1, 2, 3, 4} : Finset Int)) ∧
    SetReaderRun 30 [] ["4", "-", "7", "15", "20", "-", ".", "\\", "3", ";"] =
      .ok (true, ({3, 4, 5, 6, 14, 19, 22, 25, 28} : Finset Int)) ∧
    SetReaderRun 30 [] ["7", "-", "4", ";"] =
      .error "Character number out of range (or range incorrectly specified) in set specification" ∧
    SetReaderRun 30 [] ["4", "-", "40", ";"] =
      .error "Character number out of range (or range incorrectly specified) in set specification" := by
  refine ⟨?_, ?_, rfl, rfl⟩
  · have h : SetReaderRun 5 [] ["ALL", ";"] =
        .ok (true,
          insert 4 (insert 3 (insert 2 (insert 1 (insert 0 (∅ : Finset Int)))))) := rfl
    rw [h]
    have hs : insert 4 (insert 3 (insert 2 (insert 1 (insert 0 (∅ : Finset Int))))) =
        ({0, 1, 2, 3, 4} : Finset Int) := by decide
    rw [hs]
  · have h : SetReaderRun 30 []
        ["4", "-", "7", "15", "20", "-", ".", "\\", "3", ";"] =
        .ok (true,
          insert 28 (insert 25 (insert 22 (insert 19 (insert 14 (insert 6
            (insert 5 (insert 4 (insert 3 (∅ : Finset Int)))))))))) := rfl
    rw [h]
    have hs : insert 28 (insert 25 (insert 22 (insert 19 (insert 14 (insert 6
        (insert 5 (insert 4 (insert 3 (∅ : Finset Int))))))))) =
        ({3, 4, 5, 6, 14, 19, 22, 25, 28} : Finset Int) := by decide
    rw [hs]

/-! ## Nexus::Execute (nexus.cpp)

The dispatcher loop.  The token stream is abstracted to the sequence of
top-level items Execute reacts to: a `BEGIN <name>` section (whose body,
when no enabled handler matches, skips cleanly iff `skipOk`), the
`&SHOWALL` command comment, and the `&LEAVE` command comment.  A handler
is a `NexusBlockM`; its `Read` either succeeds or throws `XNexus` at a
recorded position (`readFails`), after setting the block's `errormsg`
field.  `filled` abstracts the handler's contents (`Reset` empties it). -/

structure XPos where
  pos : Nat
  line : Nat
  col : Nat
  deriving Repr, DecidableEq

structure NexusBlockM where
  id : String
  enabled : Bool
  errormsg : String
  readFails : Option XPos
  filled : Bool
  deriving Repr, DecidableEq

inductive TraceEv where
  | enteringBlock (id : String)
  | exitingBlock (id : String)
  | nexusError (msg : String) (pos line col : Nat)
  | skippingBlock (name : String)
  | skippingDisabledBlock (name : String)
  | debugReport (id : String)
  deriving Repr, DecidableEq

inductive Ev where
  | beginSection (name : String) (skipOk : Bool)
  | showall
  | leave
  deriving Repr, DecidableEq

inductive ScanOutcome where
  | matched
  | failed (msg : String) (p : XPos)
  | unmatched (disabledBlock : Bool)
  deriving Repr, DecidableEq

/-- The handler scan inside Execute's BEGIN branch
(`for( curr = blockList; curr != NULL; curr = curr->next )`): a
non-matching handler is passed over; a matching disabled handler fires
`SkippingDisabledBlock` and the scan continues; the first matching enabled
handler is entered (`EnteringBlock`), reset, and read — success fires
`ExitingBlock` and stops the scan, a throw fires `NexusError` with the
block's `errormsg` and the exception's position, resets the handler again
and aborts. -/
def scanBlocks : List NexusBlockM → String → Bool →
    List NexusBlockM × List TraceEv × ScanOutcome
  | [], _, disabled => ([], [], .unmatched disabled)
  | b :: bs, name, disabled =>
      if ¬ strEqCI name b.id then
        let r := scanBlocks bs name disabled
        (b :: r.1, r.2)
      else if ¬ b.enabled then
        let r := scanBlocks bs name true
        (b :: r.1, .skippingDisabledBlock name :: r.2.1, r.2.2)
      else
        match b.readFails with
        | none =>
            ({ b with filled := true } :: bs,
              [.enteringBlock b.id, .exitingBlock b.id], .matched)
        | some p =>
            ({ b with filled := false } :: bs,
              [.enteringBlock b.id,
                .nexusError b.errormsg p.pos p.line p.col],
              .failed b.errormsg p)

structure ExecSt where
  blocks : List NexusBlockM
  trace : List TraceEv
  halted : Bool
  deriving Repr, DecidableEq

/-- One iteration of Execute's main loop. -/
def execStep (st : ExecSt) (ev : Ev) : ExecSt :=
  match ev with
  | .beginSection name skipOk =>
      let r := scanBlocks st.blocks name false
      match r.2.2 with
      | .matched => { st with blocks := r.1, trace := st.trace ++ r.2.1 }
      | .failed _ _ =>
          { blocks := r.1, trace := st.trace ++ r.2.1, halted := true }
      | .unmatched disabled =>
          let skipEvs := if disabled then [] else [TraceEv.skippingBlock name]
          if skipOk then
            { st with blocks := r.1, trace := st.trace ++ r.2.1 ++ skipEvs }
          else
            { blocks := r.1,
              trace := st.trace ++ r.2.1 ++ skipEvs ++
                [.nexusError "Expecting ';' after END or ENDBLOCK command, or unexpected end of file" 0 0 0],
              halted := true }
  | .showall =>
      { st with trace := st.trace ++ st.blocks.map (fun b => .debugReport b.id) }
  | .leave => { st with halted := true }

/-- Execute's loop: once the call has returned (`halted`), remaining input
is not looked at. -/
def execEvents : ExecSt → List Ev → ExecSt
  | st, [] => st
  | st, ev :: rest => if st.halted then st else execEvents (execStep st ev) rest

/-- `Nexus::Execute`: checks the leading `#NEXUS` marker, then runs the
section loop. -/
def NexusExecute (blocks : List NexusBlockM) (firstToken : String)
    (events : List Ev) : ExecSt :=
  if ¬ strEqCI firstToken "#NEXUS" then
    { blocks := blocks,
      trace := [.nexusError ("Expecting #NEXUS to be the first token in the file, but found " ++ firstToken ++ " instead") 0 0 0],
      halted := true }
  else
    execEvents { blocks := blocks, trace := [], halted := false } events

theorem execEvents_halted (l : List Ev) (st : ExecSt)
    (h : st.halted = true) : execEvents st l = st := by
  cases l with
  | nil => rfl
  | cons ev rest => simp [execEvents, h]

theorem execEvents_append (l1 l2 : List Ev) :
    ∀ st : ExecSt, execEvents st (l1 ++ l2) = execEvents (execEvents st l1) l2 := by
  induction l1 with
  | nil => intro st; rfl
  | cons ev rest ih =>
      intro st
      by_cases h : st.halted = true
      · rw [execEvents_halted ((ev :: rest) ++ l2) st h,
          execEvents_halted (ev :: rest) st h, execEvents_halted l2 st h]
      · have e1 : execEvents st ((ev :: rest) ++ l2) =
            execEvents (execStep st ev) (rest ++ l2) := by
          rw [List.cons_append]
          simp [execEvents, h]
        have e2 : execEvents st (ev :: rest) =
            execEvents (execStep st ev) rest := by
          simp [execEvents, h]
        rw [e1, e2, ih]

theorem scanBlocks_failed_spec (name : String) (b : NexusBlockM) (p : XPos)
    (hname : strEqCI name b.id = true) (hen : b.enabled = true)
    (hfail : b.readFails = some p) :
    ∀ (bpre bpost : List NexusBlockM) (d : Bool),
      (∀ b' ∈ bpre, strEqCI name b'.id = true → b'.enabled = false) →
      scanBlocks (bpre ++ b :: bpost) name d =
        (bpre ++ { b with filled := false } :: bpost,
          (bpre.filter (fun b' => strEqCI name b'.id)).map
            (fun _ => TraceEv.skippingDisabledBlock name) ++
            [.enteringBlock b.id,
              .nexusError b.errormsg p.pos p.line p.col],
          .failed b.errormsg p) := by
  intro bpre
  induction bpre with
  | nil =>
      intro bpost d _
      simp only [List.nil_append, List.filter_nil, List.map_nil]
      unfold scanBlocks
      rw [if_neg (by simp [hname]), if_neg (by simp [hen]), hfail]
  | cons b' bpre' ih =>
      intro bpost d hsk
      have hb' := hsk b' (by simp)
      by_cases hm : strEqCI name b'.id = true
      · have hdis : b'.enabled = false := hb' hm
        simp only [List.cons_append]
        unfold scanBlocks
        rw [if_neg (by simp [hm]), if_pos (by simp [hdis])]
        rw [ih bpost true (fun x hx hmx => hsk x (by simp [hx]) hmx)]
        simp [hm]
      · simp only [List.cons_append]
        unfold scanBlocks
        rw [if_pos (by simpa using hm)]
        rw [ih bpost d (fun x hx hmx => hsk x (by simp [hx]) hmx)]
        simp only [List.filter_cons]
        rw [if_neg (by simpa using hm)]

/-- **C7** (dispatcher failure model).  If, after some prefix of the
document, a `BEGIN name` section matches an enabled handler `b` whose
`Read` throws a parse error at position `p` (matching handlers earlier in
the registry being disabled), then `Execute`: forwards the handler's error
message together with the exception's byte offset/line/column to the
`NexusError` reporting callback, resets the failed handler to empty
(`filled = false`) leaving all other handlers untouched, and aborts the
remainder of the whole-document call — the state equals the run that ends
at the failing section, so later sections are never attempted — while
`Execute` itself returns normally (the model is a total function). -/
theorem dispatcher_read_failure
    (blocks : List NexusBlockM) (first : String) (pre post : List Ev)
    (name : String) (skipOk : Bool) (bpre bpost : List NexusBlockM)
    (b : NexusBlockM) (p : XPos)
    (hfirst : strEqCI first "#NEXUS" = true)
    (hhalt : (NexusExecute blocks first pre).halted = false)
    (hblocks : (NexusExecute blocks first pre).blocks = bpre ++ b :: bpost)
    (hskip : ∀ b' ∈ bpre, strEqCI name b'.id = true → b'.enabled = false)
    (hname : strEqCI name b.id = true) (hen : b.enabled = true)
    (hfail : b.readFails = some p) :
    NexusExecute blocks first (pre ++ .beginSection name skipOk :: post) =
      NexusExecute blocks first (pre ++ [.beginSection name skipOk]) ∧
    (NexusExecute blocks first (pre ++ .beginSection name skipOk :: post)).halted = true ∧
    (NexusExecute blocks first (pre ++ .beginSection name skipOk :: post)).trace =
      (NexusExecute blocks first pre).trace ++
        ((bpre.filter (fun b' => strEqCI name b'.id)).map
          (fun _ => TraceEv.skippingDisabledBlock name) ++
          [.enteringBlock b.id,
            .nexusError b.errormsg p.pos p.line p.col]) ∧
    (NexusExecute blocks first (pre ++ .beginSection name skipOk :: post)).blocks =
      bpre ++ { b with filled := false } :: bpost := by
  have hnex : ∀ evs, NexusExecute blocks first evs =
      execEvents { blocks := blocks, trace := [], halted := false } evs := by
    intro evs
    unfold NexusExecute
    rw [if_neg (by simp [hfirst])]
  have hscan := scanBlocks_failed_spec name b p hname hen hfail bpre bpost false hskip
  have hstep : execStep (NexusExecute blocks first pre)
      (.beginSection name skipOk) =
      { blocks := bpre ++ { b with filled := false } :: bpost,
        trace := (NexusExecute blocks first pre).trace ++
          ((bpre.filter (fun b' => strEqCI name b'.id)).map
            (fun _ => TraceEv.skippingDisabledBlock name) ++
            [.enteringBlock b.id,
              .nexusError b.errormsg p.pos p.line p.col]),
        halted := true } := by
    simp only [execStep]
    rw [hblocks, hscan]
  have hrun : ∀ tl, NexusExecute blocks first
      (pre ++ .beginSection name skipOk :: tl) =
      { blocks := bpre ++ { b with filled := false } :: bpost,
        trace := (NexusExecute blocks first pre).trace ++
          ((bpre.filter (fun b' => strEqCI name b'.id)).map
            (fun _ => TraceEv.skippingDisabledBlock name) ++
            [.enteringBlock b.id,
              .nexusError b.errormsg p.pos p.line p.col]),
        halted := true } := by
    intro tl
    rw [hnex, execEvents_append pre (.beginSection name skipOk :: tl)]
    rw [← hnex pre]
    unfold execEvents
    rw [if_neg (by simp [hhalt]), hstep]
    exact execEvents_halted tl _ rfl
  refine ⟨?_, ?_, ?_, ?_⟩
  · rw [hrun post, hrun []]
  · rw [hrun post]
  · rw [hrun post]
  · rw [hrun post]

/-- Witness for `dispatcher_read_failure`: two handlers (an enabled TAXA
handler that reads fine, then a CHARACTERS handler whose read throws at
byte 10, line 2, column 5); a TAXA section, then the failing CHARACTERS
section, then a TREES section that is never attempted. -/
theorem dispatcher_read_failure_witness :
    NexusExecute
      [⟨"TAXA", true, "", none, false⟩,
        ⟨"CHARACTERS", true, "bad matrix", some ⟨10, 2, 5⟩, false⟩]
      "#NEXUS"
      [.beginSection "TAXA" true, .beginSection "CHARACTERS" true,
        .beginSection "TREES" true] =
    NexusExecute
      [⟨"TAXA", true, "", none, false⟩,
        ⟨"CHARACTERS", true, "bad matrix", some ⟨10, 2, 5⟩, false⟩]
      "#NEXUS"
      [.beginSection "TAXA" true, .beginSection "CHARACTERS" true] ∧
    (NexusExecute
      [⟨"TAXA", true, "", none, false⟩,
        ⟨"CHARACTERS", true, "bad matrix", some ⟨10, 2, 5⟩, false⟩]
      "#NEXUS"
      [.beginSection "TAXA" true, .beginSection "CHARACTERS" true,
        .beginSection "TREES" true]).trace =
      [.enteringBlock "TAXA", .exitingBlock "TAXA"] ++
        ([] ++ [.enteringBlock "CHARACTERS",
          .nexusError "bad matrix" 10 2 5]) := by
  have h := dispatcher_read_failure
    [⟨"TAXA", true, "", none, false⟩,
      ⟨"CHARACTERS", true, "bad matrix", some ⟨10, 2, 5⟩, false⟩]
    "#NEXUS" [.beginSection "TAXA" true] [.beginSection "TREES" true]
    "CHARACTERS" true [⟨"TAXA", true, "", none, true⟩] []
    ⟨"CHARACTERS", true, "bad matrix", some ⟨10, 2, 5⟩, false⟩ ⟨10, 2, 5⟩
    (by decide) (by decide) (by decide) (by decide) (by decide) (by decide)
    (by decide)
  exact ⟨h.1, h.2.2.1⟩

/-! ## NexusToken (nexustoken.cpp)

Character-level model of the tokenizer.  The input stream is the list of
remaining characters; `saved` holds the single pushed-back character
(`'\0'` when empty); the labile flags are passed per pull (they are
cleared after every `GetNextToken` in the source).  Loops that consume at
least one character per iteration take fuel one above the remaining input
length, so the fuel-exhaustion equations are unreachable.  The
post-parenthesis "rdmp" loop of `GetParentheticalToken` re-reads the raw
stream until a semicolon is peeked and spins forever at end of input; its
model returns `none` (divergence) in that case. -/

def nulChar : Char := Char.ofNat 0

structure XErr where
  msg : String
  pos : Nat
  line : Nat
  col : Nat
  deriving Repr, DecidableEq

structure TokState where
  input : List Char
  saved : Char
  atEOF : Bool
  atEOL : Bool
  token : List Char
  comment : List Char
  outputs : List (List Char)
  special : Char
  fileline : Nat
  filecol : Nat
  filepos : Nat
  deriving Repr, DecidableEq

/-- Labile (one-shot) flags, cleared after each pull. -/
structure Labile where
  saveCommandComments : Bool := false
  parentheticalToken : Bool := false
  curlyBracketedToken : Bool := false
  doubleQuotedToken : Bool := false
  singleCharacterToken : Bool := false
  newlineIsToken : Bool := false
  tildeIsPunctuation : Bool := false
  useSpecialPunctuation : Bool := false
  hyphenNotPunctuation : Bool := false
  deriving Repr, DecidableEq

/-- A fresh token stream over `l` (constructor state of `NexusToken`). -/
def mkTok (l : List Char) : TokState :=
  { input := l, saved := nulChar, atEOF := false, atEOL := false
    token := [], comment := [], outputs := [], special := nulChar
    fileline := 1, filecol := 1, filepos := 0 }

/-- `NexusToken::GetNextChar`: CR/LF normalization (CRLF merged), line,
column and byte-offset bookkeeping, EOF and EOL flags. -/
def GetNextChar (st : TokState) : Char × TokState :=
  match st.input with
  | [] => (nulChar, { st with atEOF := true })
  | c :: rest =>
      if c = '\r' then
        match rest with
        | '\n' :: r2 =>
            ('\n', { st with
              input := r2, fileline := st.fileline + 1,
              filecol := 1, atEOL := true, filepos := st.filepos + 2 })
        | _ =>
            ('\n', { st with
              input := rest, fileline := st.fileline + 1,
              filecol := 1, atEOL := true, filepos := st.filepos + 1 })
      else if c = '\n' then
        ('\n', { st with
          input := rest, fileline := st.fileline + 1,
          filecol := 1, atEOL := true, filepos := st.filepos + 1 })
      else
        (c, { st with
          input := rest, filecol := st.filecol + 1,
          atEOL := false, filepos := st.filepos + 1 })

/-- `NexusToken::IsWhitespace`: blank, tab or newline — but newline counts
as darkspace while `newlineIsToken` is in effect. -/
def IsWhitespace (flags : Labile) (ch : Char) : Bool :=
  if flags.newlineIsToken ∧ ch = '\n' then false
  else ch = ' ' ∨ ch = '\t' ∨ ch = '\n'

/-- `NexusToken::IsPunctuation`: the fixed twenty-character set, plus `~`
and the caller-nominated special character under their labile flags, minus
`-` under `hyphenNotPunctuation`. -/
def IsPunctuation (flags : Labile) (special ch : Char) : Bool :=
  let base : Bool := ch ∈ ['(', ')', '[', ']', '{', '}', '/', '\\', ',',
    ';', ':', '=', '*', '\'', '"', '`', '+', '-', '<', '>']
  let p1 : Bool := base || (flags.tildeIsPunctuation && ch = '~')
  let p2 : Bool := p1 || (flags.useSpecialPunctuation && ch = special)
  if flags.hyphenNotPunctuation ∧ ch = '-' then false else p2

/-- Body loop of `NexusToken::GetComment` (nesting level starts at 1; the
closing bracket is not stored; at end of file the loop just breaks). -/
def getCommentLoop (printing command : Bool) :
    Nat → Nat → TokState → TokState
  | 0, _, st => st
  | fuel + 1, level, st =>
      let r := GetNextChar st
      if r.2.atEOF then r.2
      else
        let level' := if r.1 = ']' then level - 1
          else if r.1 = '[' then level + 1 else level
        if level' = 0 then r.2
        else
          let st2 :=
            if printing then { r.2 with comment := r.2.comment ++ [r.1] }
            else if command then { r.2 with token := r.2.token ++ [r.1] }
            else r.2
          getCommentLoop printing command fuel level' st2

/-- `NexusToken::GetComment`: an immediate end of file raises the
position-tagged "Unexpected end of file inside comment" error; an output
comment (`!`) is forwarded to the output sink; a command comment (`&`,
with `saveCommandComments`) lands in the token. -/
def GetComment (flags : Labile) (st : TokState) : Except XErr TokState :=
  let r := GetNextChar st
  if r.2.atEOF then
    .error ⟨"Unexpected end of file inside comment",
      r.2.filepos, r.2.fileline, r.2.filecol⟩
  else
    let printing := r.1 = '!'
    let command := ¬ printing ∧ r.1 = '&' ∧ flags.saveCommandComments
    let st2 := if command then { r.2 with token := r.2.token ++ [r.1] } else r.2
    let st3 := getCommentLoop printing (decide command) (st2.input.length + 1) 1 st2
    if printing then
      .ok { st3 with outputs := st3.outputs ++ [st3.comment], comment := [] }
    else .ok st3

/-- `NexusToken::GetQuoted` (the opening quote was consumed by the caller):
doubled quotes collapse, an isolated quote terminates and pushes the
follower back into `saved`, underscores become blanks, end of file just
breaks. -/
def getQuotedLoop : Nat → TokState → TokState
  | 0, st => st
  | fuel + 1, st =>
      let r := GetNextChar st
      if r.2.atEOF then r.2
      else if r.1 = '\'' ∧ r.2.saved = '\'' then
        getQuotedLoop fuel { r.2 with
          token := r.2.token ++ ['\''], saved := nulChar }
      else if r.1 = '\'' ∧ r.2.saved = nulChar then
        getQuotedLoop fuel { r.2 with saved := '\'' }
      else if r.2.saved = '\'' then
        { r.2 with saved := r.1 }
      else if r.1 = '_' then
        getQuotedLoop fuel { r.2 with token := r.2.token ++ [' '] }
      else
        getQuotedLoop fuel { r.2 with token := r.2.token ++ [r.1] }

/-- `NexusToken::GetDoubleQuotedToken`. -/
def getDoubleQuotedLoop : Nat → TokState → TokState
  | 0, st => st
  | fuel + 1, st =>
      let r := GetNextChar st
      if r.2.atEOF then r.2
      else if r.1 = '"' then r.2
      else if r.1 = '_' then
        getDoubleQuotedLoop fuel { r.2 with token := r.2.token ++ [' '] }
      else
        getDoubleQuotedLoop fuel { r.2 with token := r.2.token ++ [r.1] }

/-- `NexusToken::GetCurlyBracketedToken`: appends every character read
(including the closing brace), tracks nesting, and at end of file simply
breaks — no error is raised. -/
def getCurlyLoop : Nat → Nat → TokState → TokState
  | 0, _, st => st
  | fuel + 1, level, st =>
      let r := GetNextChar st
      if r.2.atEOF then r.2
      else
        let level' := if r.1 = '}' then level - 1
          else if r.1 = '{' then level + 1 else level
        let st2 := { r.2 with token := r.2.token ++ [r.1] }
        if level' = 0 then st2
        else getCurlyLoop fuel level' st2

/-- The bracket-matching loop of `NexusToken::GetParentheticalToken`
(same structure as the curly loop). -/
def getParenLoop : Nat → Nat → TokState → TokState
  | 0, _, st => st
  | fuel + 1, level, st =>
      let r := GetNextChar st
      if r.2.atEOF then r.2
      else
        let level' := if r.1 = ')' then level - 1
          else if r.1 = '(' then level + 1 else level
        let st2 := { r.2 with token := r.2.token ++ [r.1] }
        if level' = 0 then st2
        else getParenLoop fuel level' st2

/-- The "rdmp" hack appended to `GetParentheticalToken`: keep reading raw
characters into the token until a semicolon is peeked.  At end of input
the C++ `while (in.peek() != ';') AppendToToken(in.get())` never
terminates; that case is `none`. -/
def parenHackLoop : Nat → TokState → Option TokState
  | 0, _ => none
  | fuel + 1, st =>
      match st.input with
      | [] => none
      | c :: rest =>
          if c = ';' then some st
          else parenHackLoop fuel { st with
            input := rest, token := st.token ++ [c] }

/-- `NexusToken::GetParentheticalToken`: bracket matching, then the rdmp
semicolon scan. -/
def GetParentheticalToken (st : TokState) : Option TokState :=
  let st1 := getParenLoop (st.input.length + 1) 1 st
  parenHackLoop (st1.input.length + 1) st1

/-- The leading-whitespace skip at the top of `GetNextToken`
(`ch` starts out as `' '`). -/
def skipWSLoop (flags : Labile) : Nat → TokState → Char → TokState × Char
  | 0, st, ch => (st, ch)
  | fuel + 1, st, ch =>
      if IsWhitespace flags ch ∧ ¬ st.atEOF then
        let r := GetNextChar st
        skipWSLoop flags fuel r.2 r.1
      else (st, ch)

/-- The main token-assembly loop of `GetNextToken`, parameterized by the
parenthetical reader so that the spec-modelled variant (see
`GetParentheticalTokenSpec`) can reuse it; the faithful instantiation is
`GetNextToken` below. -/
def tokenMainLoop (parenReader : TokState → Option TokState) (flags : Labile) :
    Nat → TokState → Option (Except XErr TokState)
  | 0, _ => none
  | fuel + 1, st =>
      if flags.singleCharacterToken ∧ st.token.length > 0 then some (.ok st)
      else
        let r := if st.saved ≠ nulChar then (st.saved, { st with saved := nulChar })
          else GetNextChar st
        let ch := r.1
        let st1 := r.2
        if st1.atEOF then some (.ok st1)
        else if ch = '\n' ∧ flags.newlineIsToken then
          (if st1.token.length > 0 then
            some (.ok { st1 with atEOL := false, saved := ch })
          else
            some (.ok { st1 with atEOL := true, token := st1.token ++ ['\n'] }))
        else if IsWhitespace flags ch then
          (if st1.token.length > 0 then some (.ok st1)
          else tokenMainLoop parenReader flags fuel st1)
        else if ch = '_' then
          tokenMainLoop parenReader flags fuel { st1 with token := st1.token ++ [' '] }
        else if ch = '[' then
          (match GetComment flags st1 with
          | .error e => some (.error e)
          | .ok st2 =>
              if st2.token.length > 0 then some (.ok st2)
              else tokenMainLoop parenReader flags fuel st2)
        else if ch = '(' ∧ flags.parentheticalToken then
          (match parenReader { st1 with token := st1.token ++ ['('] } with
          | none => none
          | some st2 => some (.ok st2))
        else if ch = '{' ∧ flags.curlyBracketedToken then
          some (.ok (getCurlyLoop (st1.input.length + 1) 1
            { st1 with token := st1.token ++ ['{'] }))
        else if ch = '"' ∧ flags.doubleQuotedToken then
          some (.ok (getDoubleQuotedLoop (st1.input.length + 1) st1))
        else if ch = '\'' then
          (if st1.token.length > 0 then
            let r2 := GetNextChar st1
            if r2.1 = '\'' then
              some (.ok { r2.2 with token := r2.2.token ++ ['\''] })
            else
              some (.error ⟨"Expecting second single quote character",
                r2.2.filepos, r2.2.fileline, r2.2.filecol⟩)
          else
            some (.ok (getQuotedLoop (st1.input.length + 1) st1)))
        else if IsPunctuation flags st1.special ch then
          (if st1.token.length > 0 then
            some (.ok { st1 with saved := ch })
          else
            some (.ok { st1 with token := st1.token ++ [ch] }))
        else
          tokenMainLoop parenReader flags fuel { st1 with token := st1.token ++ [ch] }

/-- `NexusToken::GetNextToken` over a given parenthetical reader: reset
the token, skip leading whitespace when the pushed-back character is
empty or whitespace, run the main loop.  The labile flags apply only to
this pull. -/
def GetNextTokenWith (parenReader : TokState → Option TokState)
    (flags : Labile) (st0 : TokState) : Option (Except XErr TokState) :=
  let st := { st0 with token := [] }
  let st1 :=
    if st.saved = nulChar ∨ IsWhitespace flags st.saved then
      let r := skipWSLoop flags (st.input.length + 2) st ' '
      { r.1 with saved := r.2 }
    else st
  tokenMainLoop parenReader flags (st1.input.length + 2) st1

/-- `NexusToken::GetNextToken` as in the source (with the rdmp hack in the
parenthetical reader). -/
def GetNextToken (flags : Labile) (st0 : TokState) :
    Option (Except XErr TokState) :=
  GetNextTokenWith GetParentheticalToken flags st0

/-- Token text of a successful pull (empty on error or divergence). -/
def tokenOf (r : Option (Except XErr TokState)) : List Char :=
  match r with
  | some (.ok st) => st.token
  | _ => []

/-- Post-pull state of a successful pull (fresh empty stream otherwise). -/
def stateOf (r : Option (Except XErr TokState)) : TokState :=
  match r with
  | some (.ok st) => st
  | _ => mkTok []

/-- **C8 counterexample.**  With the curly-bracketed one-shot flag set and
input `"{ab"` — the opening `{` read, end of input before the matching
`}` — the token pull returns *normally* (`.ok`, with the partial token
`"{ab"` and the at-end-of-file flag set); no position-tagged error is
raised, contrary to the claim. -/
theorem curly_eof_counterexample :
    GetNextToken { curlyBracketedToken := true } (mkTok ['{', 'a', 'b']) =
      some (.ok { input := [], saved := nulChar, atEOF := true,
                  atEOL := false, token := ['{', 'a', 'b'], comment := [],
                  outputs := [], special := nulChar, fileline := 1,
                  filecol := 4, filepos := 3 }) := rfl

/-- **C8 amended.**  When end of input is reached before the matching
close while range-reading a curly-braced token, the pull raises no error:
it always returns `.ok` (first conjunct, for every remainder of input),
delivering the partial token with the at-EOF flag set (second conjunct,
on `"{x"`).  The parenthetical reader likewise raises no error on end of
input: its trailing read-until-semicolon loop never terminates there,
modelled as `none` (third conjunct).  (Malformed quoting, by contrast,
does raise a position-tagged error — see `GetNextToken`'s
"Expecting second single quote character" branch.) -/
theorem curly_paren_eof_behavior (rest : List Char) :
    GetNextToken { curlyBracketedToken := true } (mkTok ('{' :: rest)) =
      some (.ok (getCurlyLoop (rest.length + 1) 1
        { input := rest, saved := nulChar, atEOF := false, atEOL := false,
          token := ['{'], comment := [], outputs := [], special := nulChar,
          fileline := 1, filecol := 2, filepos := 1 })) ∧
    GetNextToken { curlyBracketedToken := true } (mkTok ['{', 'x']) =
      some (.ok { input := [], saved := nulChar, atEOF := true,
                  atEOL := false, token := ['{', 'x'], comment := [],
                  outputs := [], special := nulChar, fileline := 1,
                  filecol := 3, filepos := 2 }) ∧
    GetNextToken { parentheticalToken := true } (mkTok ['(', 'a']) = none := by
  refine ⟨?_, rfl, rfl⟩
  simp [GetNextToken, GetNextTokenWith, tokenMainLoop, skipWSLoop,
    GetNextChar, IsWhitespace, IsPunctuation, mkTok, nulChar]

/-- **C9 counterexample.**  On input `"+A;"` the tokenizer emits `+` as its
own single-character punctuation token and then `A` as the next token —
the lone `+` is *not* absorbed into the following token, contrary to the
claim (which predicts the single token `+A`). -/
theorem plus_absorption_counterexample :
    tokenOf (GetNextToken {} (mkTok ['+', 'A', ';'])) = ['+'] ∧
    tokenOf (GetNextToken {}
      (stateOf (GetNextToken {} (mkTok ['+', 'A', ';'])))) = ['A'] ∧
    (['+'] : List Char) ≠ ['+', 'A'] :=
  ⟨rfl, rfl, by decide⟩

/-- **C9 amended.**  `+` and `-` are ordinary members of the fixed
punctuation set: a lone `+` or `-` at the start of a token is always
emitted as its own single-character token, for every following input —
exactly like the other fixed punctuation characters (shown for `*`).
The only absorption mechanism is the one-shot `hyphenNotPunctuation`
labile flag, under which `-` is treated as a regular character and
absorbed into the surrounding token (last conjunct: `"-12 "` lexes as
the single token `-12`). -/
theorem plus_minus_single_token (rest : List Char) :
    tokenOf (GetNextToken {} (mkTok ('+' :: rest))) = ['+'] ∧
    tokenOf (GetNextToken {} (mkTok ('-' :: rest))) = ['-'] ∧
    tokenOf (GetNextToken {} (mkTok ('*' :: rest))) = ['*'] ∧
    tokenOf (GetNextToken { hyphenNotPunctuation := true }
      (mkTok ('-' :: '1' :: ' ' :: rest))) = ['-', '1'] := by
  refine ⟨?_, ?_, ?_, ?_⟩ <;>
    simp [GetNextToken, GetNextTokenWith, tokenMainLoop, skipWSLoop,
      GetNextChar, IsWhitespace, IsPunctuation, mkTok, tokenOf, nulChar]

/-! ## CharactersBlock::HandleNextState and HandleStdMatrix
(charactersblock.cpp, lines 2137-2406 and 2476-2640)

The matrix-body reader in the configuration the claim exercises:
`tokens = false` (single-symbol cells), `respectingCase = false`,
`newtaxa = false` (a TAXA block supplies the labels), standard datatype
(so the equate-macro table is empty and the `equates.find` lookup never
substitutes).  Everything is driven through the character-level tokenizer
above; `parenReader` selects the faithful parenthetical reader or the
spec-modelled one (`GetParentheticalTokenSpec`). -/

/-- `TaxaBlock::FindTaxon`: index of the label, `none` models the thrown
`nosuchtaxon` exception. -/
def FindTaxon (taxonLabels : List (List Char)) (s : List Char) : Option Nat :=
  taxonLabels.findIdx? (fun lbl => lbl == s)

/-- `CharactersBlock::PositionInSymbols` with `respectingCase = false`:
first index whose upper-cased symbol matches, else -1. -/
def PositionInSymbols (symbols : List Char) (ch : Char) : Int :=
  match symbols.findIdx? (fun c => c.toUpper == ch.toUpper) with
  | some i => (i : Int)
  | none => -1

/-- Modelled from the spec (refinement reference for the interleave
reconstruction): the parenthetical reader as its own documentation and
the spec describe it — "Reads rest of parenthetical token (starting '('
already input) up to and including the matching ')' character", with no
further reading.  This is `GetParentheticalToken` without the trailing
"rdmp" read-until-semicolon loop. -/
def GetParentheticalTokenSpec (st : TokState) : Option TokState :=
  some (getParenLoop (st.input.length + 1) 1 st)

structure MatrixReadSt where
  tok : TokState
  matrix : CellGrid
  taxonPos : List Int
  deriving Repr, DecidableEq

/-- `while( t[first_nonblank] == ' ' || t[first_nonblank] == '\t' )
first_nonblank++;` (and the mirrored decrementing scan). -/
def scanNonblankUp (t : List Char) : Nat → Nat → Nat
  | 0, k => k
  | fuel + 1, k =>
      if t.getI k = ' ' ∨ t.getI k = '\t' then scanNonblankUp t fuel (k + 1)
      else k

def scanNonblankDown (t : List Char) : Nat → Nat → Nat
  | 0, k => k
  | fuel + 1, k =>
      if t.getI k = ' ' ∨ t.getI k = '\t' then scanNonblankDown t fuel (k - 1)
      else k

/-- The `while( *pFirst != '\0' && *pFirst != t[k] )` loop of the tilde
range expansion: adds states for consecutive symbols strictly before the
range end. -/
def tildeRangeLoop (symbols : List Char) (tk : Char) (i j : Int)
    (e : XErr) : Nat → Nat → CellGrid → Except XErr (Nat × CellGrid)
  | 0, pFirst, g => .ok (pFirst, g)
  | fuel + 1, pFirst, g =>
      if pFirst < symbols.length ∧ symbols.getI pFirst ≠ tk then
        let p := PositionInSymbols symbols (symbols.getI pFirst)
        if p < 0 then .error e
        else
          tildeRangeLoop symbols tk i j e fuel (pFirst + 1)
            (DiscreteMatrix.AddState g i.toNat j.toNat p)
      else .ok (pFirst, g)

/-- The `for(;;)` loop over the characters of a `{...}`/`(...)` state-set
token (k starts at 1; `pFirst` is the index of the last plain symbol). -/
def stateSetLoop (symbols : List Char) (t : List Char) (i j : Int)
    (e : XErr) : Nat → Nat → Nat → Bool → CellGrid → Except XErr CellGrid
  | 0, _, _, _, g => .ok g
  | fuel + 1, k, pFirst, tildeFound, g =>
      let c := t.getI k
      if c = ')' ∨ c = '}' then .ok g
      else if c = ' ' ∨ c = '\t' then
        stateSetLoop symbols t i j e fuel (k + 1) pFirst tildeFound g
      else if c = '~' then
        stateSetLoop symbols t i j e fuel (k + 1) pFirst true g
      else if tildeFound then
        match tildeRangeLoop symbols c i j e (symbols.length + 1) (pFirst + 1) g with
        | .error e2 => .error e2
        | .ok (pFirst', g') =>
            stateSetLoop symbols t i j e fuel (k + 1) pFirst' false g'
      else
        let p := PositionInSymbols symbols c
        if p < 0 then .error e
        else
          stateSetLoop symbols t i j e fuel (k + 1) p.toNat false
            (DiscreteMatrix.AddState g i.toNat j.toNat p)

/-- `CharactersBlock::HandleNextState` (in the `!tokens` configuration):
pulls the next cell token with the one-shot parenthetical / curly /
single-character flags (plus newline-is-token when interleaving), returns
`false` on an end-of-line token under interleaving, raises on end of
file, skips storage for eliminated columns (`j < 0`), and decodes a
single-symbol or state-set token into the cell store.  C++ `assert`s
become errors whose message starts "assert". -/
def HandleNextState (parenReader : TokState → Option TokState)
    (interleaving : Bool) (symbols : List Char)
    (missing gap matchchar : Char) (i j : Int) (st : MatrixReadSt) :
    Option (Except XErr (Bool × MatrixReadSt)) :=
  let flags : Labile :=
    { parentheticalToken := true, curlyBracketedToken := true,
      singleCharacterToken := true, newlineIsToken := interleaving }
  match GetNextTokenWith parenReader flags st.tok with
  | none => none
  | some (.error e) => some (.error e)
  | some (.ok tk) =>
      if interleaving ∧ tk.atEOL then some (.ok (false, { st with tok := tk }))
      else if tk.atEOF then
        some (.error ⟨"Unexpected end of file encountered",
          tk.filepos, tk.fileline, tk.filecol⟩)
      else if tk.token.length = 0 then
        some (.error ⟨"assert failed: token.GetTokenLength() > 0",
          tk.filepos, tk.fileline, tk.filecol⟩)
      else if j < 0 then some (.ok (true, { st with tok := tk }))
      else
        let t := tk.token
        if t.length = 1 then
          let ch := t.headI
          if ch = missing then
            let m := DiscreteMatrix.SetMissing st.matrix i.toNat j.toNat
            some (.ok (true, { st with tok := tk, matrix := m }))
          else if matchchar ≠ nulChar ∧ ch = matchchar then
            let m := DiscreteMatrix.CopyStatesFromFirstTaxon st.matrix i.toNat j.toNat
            some (.ok (true, { st with tok := tk, matrix := m }))
          else if gap ≠ nulChar ∧ ch = gap then
            let m := DiscreteMatrix.SetGap st.matrix i.toNat j.toNat
            some (.ok (true, { st with tok := tk, matrix := m }))
          else
            let p := PositionInSymbols symbols ch
            if p < 0 then
              some (.error ⟨"State specified not found in list of valid symbols",
                tk.filepos, tk.fileline, tk.filecol⟩)
            else
              let m := DiscreteMatrix.SetPolymorphic
                (DiscreteMatrix.AddState st.matrix i.toNat j.toNat p)
                i.toNat j.toNat 0
              some (.ok (true, { st with tok := tk, matrix := m }))
        else
          let poly := t.headI = '('
          if ¬ (poly ∨ t.headI = '{') then
            some (.error ⟨"assert failed: poly || t[0] == chr-lbrace",
              tk.filepos, tk.fileline, tk.filecol⟩)
          else if ¬ ((poly ∧ t.getLastI = ')') ∨ (¬ poly ∧ t.getLastI = '}')) then
            some (.error ⟨"assert failed: state set not closed by matching bracket",
              tk.filepos, tk.fileline, tk.filecol⟩)
          else
            let firstNB := scanNonblankUp t t.length 1
            let lastNB := scanNonblankDown t t.length (t.length - 2)
            if t.getI firstNB = '~' ∨ t.getI lastNB = '~' then
              some (.error ⟨"does not represent a valid range of states",
                tk.filepos, tk.fileline, tk.filecol⟩)
            else
              let e : XErr := ⟨"State specified not found in list of valid symbols",
                tk.filepos, tk.fileline, tk.filecol⟩
              match stateSetLoop symbols t i j e (t.length + 1) 1 0 false st.matrix with
              | .error e2 => some (.error e2)
              | .ok g' =>
                  let m := DiscreteMatrix.SetPolymorphic g' i.toNat j.toNat
                    (if poly then 1 else 0)
                  some (.ok (true, { st with tok := tk, matrix := m }))

/-- The innermost loop of `HandleStdMatrix`
(`for( currChar = firstChar; currChar < lastChar; currChar++ )`), with an
end-of-line pull truncating `lastChar` and recording `nextFirst`.
Returns the final `(state, currChar, lastChar, nextFirst)`. -/
def stdMatrixInner (parenReader : TokState → Option TokState)
    (interleaving : Bool) (symbols : List Char)
    (missing gap matchchar : Char) (ncharTotal : Nat) (charPos : List Int)
    (i : Nat) :
    Nat → Nat → Nat → Nat → MatrixReadSt →
    Option (Except XErr (MatrixReadSt × Nat × Nat × Nat))
  | 0, currChar, lastChar, nextFirst, st =>
      some (.ok (st, currChar, lastChar, nextFirst))
  | fuel + 1, currChar, lastChar, nextFirst, st =>
      if currChar ≥ lastChar then some (.ok (st, currChar, lastChar, nextFirst))
      else
        let j := charPos.getI currChar
        match HandleNextState parenReader interleaving symbols missing gap
            matchchar (i : Int) j st with
        | none => none
        | some (.error e) => some (.error e)
        | some (.ok (ok, st')) =>
            if interleaving ∧ ¬ ok then
              if lastChar < ncharTotal ∧ j ≠ (lastChar : Int) then
                some (.error ⟨"Each line within an interleave page must comprise the same number of characters",
                  st'.tok.filepos, st'.tok.fileline, st'.tok.filecol⟩)
              else
                stdMatrixInner parenReader interleaving symbols missing gap
                  matchchar ncharTotal charPos i fuel (currChar + 1) currChar
                  currChar st'
            else
              stdMatrixInner parenReader interleaving symbols missing gap
                matchchar ncharTotal charPos i fuel (currChar + 1) lastChar
                nextFirst st'

/-- The middle loop of `HandleStdMatrix` (`for( i = 0; i < ntax; i++ )`):
taxon-label handling (labels on, no NEWTAXA; page 0 checks duplicate data
and relative order against the TAXA block, later pages check identical
ordering), then the character loop.  Threads
`(currChar, lastChar, nextFirst)` across rows. -/
def stdMatrixRows (parenReader : TokState → Option TokState)
    (interleaving labels : Bool) (symbols : List Char)
    (missing gap matchchar : Char) (ncharTotal : Nat) (charPos : List Int)
    (taxaLabels : List (List Char)) (ntax : Nat) (page : Nat) :
    Nat → Nat → Nat → Nat → Nat → Nat → MatrixReadSt →
    Option (Except XErr (MatrixReadSt × Nat × Nat × Nat))
  | 0, _, currChar, _, lastChar, nextFirst, st =>
      some (.ok (st, currChar, lastChar, nextFirst))
  | fuel + 1, i, currChar, firstChar, lastChar, nextFirst, st =>
      if i ≥ ntax then some (.ok (st, currChar, lastChar, nextFirst))
      else
        let labelStep : Option (Except XErr MatrixReadSt) :=
          if labels then
            match GetNextTokenWith parenReader {} st.tok with
            | none => none
            | some (.error e) => some (.error e)
            | some (.ok tk) =>
                match FindTaxon taxaLabels tk.token with
                | none =>
                    some (.error ⟨"Could not find taxon named among stored taxon labels",
                      tk.filepos, tk.fileline, tk.filecol⟩)
                | some positionInTaxaBlock =>
                    if page = 0 then
                      if st.taxonPos.getI positionInTaxaBlock ≠ -1 then
                        some (.error ⟨"Data for this taxon has already been saved",
                          tk.filepos, tk.fileline, tk.filecol⟩)
                      else if positionInTaxaBlock ≠ i then
                        some (.error ⟨"Relative order of taxa must be the same in both the TAXA and CHARACTERS blocks",
                          tk.filepos, tk.fileline, tk.filecol⟩)
                      else
                        let tp := st.taxonPos.set i (positionInTaxaBlock : Int)
                        some (.ok { st with tok := tk, taxonPos := tp })
                    else
                      if st.taxonPos.getI positionInTaxaBlock ≠ (i : Int) then
                        some (.error ⟨"Ordering of taxa must be identical to that in first interleave page",
                          tk.filepos, tk.fileline, tk.filecol⟩)
                      else some (.ok { st with tok := tk })
          else
            if page = 0 then
              some (.ok { st with taxonPos := st.taxonPos.set i (i : Int) })
            else some (.ok st)
        match labelStep with
        | none => none
        | some (.error e) => some (.error e)
        | some (.ok st1) =>
            match stdMatrixInner parenReader interleaving symbols missing gap
                matchchar ncharTotal charPos i (lastChar - firstChar + 1)
                firstChar lastChar nextFirst st1 with
            | none => none
            | some (.error e) => some (.error e)
            | some (.ok (st2, currChar', lastChar', nextFirst')) =>
                stdMatrixRows parenReader interleaving labels symbols missing
                  gap matchchar ncharTotal charPos taxaLabels ntax page fuel
                  (i + 1) currChar' firstChar lastChar' nextFirst' st2

/-- The outer interleave-page loop of `HandleStdMatrix`. -/
def stdMatrixPages (parenReader : TokState → Option TokState)
    (interleaving labels : Bool) (symbols : List Char)
    (missing gap matchchar : Char) (ncharTotal : Nat) (charPos : List Int)
    (taxaLabels : List (List Char)) (ntax : Nat) :
    Nat → Nat → Nat → Nat → Nat → MatrixReadSt →
    Option (Except XErr MatrixReadSt)
  | 0, _, _, _, _, _ => none
  | fuel + 1, firstChar, lastChar, nextFirst, page, st =>
      match stdMatrixRows parenReader interleaving labels symbols missing gap
          matchchar ncharTotal charPos taxaLabels ntax page ntax 0 firstChar
          firstChar lastChar nextFirst st with
      | none => none
      | some (.error e) => some (.error e)
      | some (.ok (st', currChar, _lastChar', nextFirst')) =>
          if currChar = ncharTotal then some (.ok st')
          else
            stdMatrixPages parenReader interleaving labels symbols missing gap
              matchchar ncharTotal charPos taxaLabels ntax fuel nextFirst'
              ncharTotal nextFirst' (page + 1) st'

/-- `CharactersBlock::HandleStdMatrix`, entered with the state
`HandleMatrix` sets up: a fresh `ntax × nchar` cell store and `taxonPos`
filled with the removed sentinel. -/
def HandleStdMatrix (parenReader : TokState → Option TokState)
    (interleaving labels : Bool) (symbols : List Char)
    (missing gap matchchar : Char) (ntax ntaxTotal nchar ncharTotal : Nat)
    (charPos : List Int) (taxaLabels : List (List Char))
    (input : List Char) : Option (Except XErr MatrixReadSt) :=
  stdMatrixPages parenReader interleaving labels symbols missing gap matchchar
    ncharTotal charPos taxaLabels ntax (ncharTotal + 2) 0 ncharTotal 0 0
    { tok := mkTok input,
      matrix := DiscreteMatrix.mkGrid ntax nchar,
      taxonPos := List.replicate ntaxTotal (-1) }

/-- Matrix projection of a run result. -/
def matrixOf (r : Option (Except XErr MatrixReadSt)) : Option CellGrid :=
  match r with
  | some (.ok st) => some st.matrix
  | _ => none

/-- The claim's 3-row/5-column scenario: standard datatype (symbols
`"01"`, missing `'?'`, no gap/match character), TAXA block `A B C`, no
elimination (identity `charPos`). -/
def c2Symbols : List Char := ['0', '1']

def c2CharPos : List Int := [0, 1, 2, 3, 4]

def c2TaxaLabels : List (List Char) := [['A'], ['B'], ['C']]

/-- The matrix body split into two interleave pages at column 3. -/
def c2InterleavedInput : List Char :=
  "A 0 1 (01)\nB ? {01} 1\nC 1 0 ?\nA ? 0\nB 1 (01)\nC 0 1\n;".data

/-- The same data as one non-interleaved page. -/
def c2FlatInput : List Char :=
  "A 0 1 (01) ? 0\nB ? {01} 1 1 (01)\nC 1 0 ? 0 1\n;".data

/-- The decoded cell store both reads should produce: row A =
`0 1 (01) ? 0`, row B = `? {01} 1 1 (01)`, row C = `1 0 ? 0 1`
(`[2,0,1,1]` = polymorphic {0,1}, `[2,0,1,0]` = uncertain {0,1},
`none` = missing). -/
def c2Grid : CellGrid :=
  [[⟨some [1, 0]⟩, ⟨some [1, 1]⟩, ⟨some [2, 0, 1, 1]⟩, ⟨none⟩, ⟨some [1, 0]⟩],
   [⟨none⟩, ⟨some [2, 0, 1, 0]⟩, ⟨some [1, 1]⟩, ⟨some [1, 1]⟩,
     ⟨some [2, 0, 1, 1]⟩],
   [⟨some [1, 1]⟩, ⟨some [1, 0]⟩, ⟨none⟩, ⟨some [1, 0]⟩, ⟨some [1, 1]⟩]]

/-- **C2** (interleave reconstruction — code bug).  On the claim's
3×5 scenario with mixed missing and polymorphic cells the shipped code
fails: `GetParentheticalToken`'s trailing "rdmp" loop keeps appending raw
characters after the matching `)` until it peeks a semicolon, so the
first polymorphic cell token swallows the rest of the matrix body and
`HandleNextState`'s closing-bracket assertion fires — in both the
interleaved and the non-interleaved read (first two conjuncts).  Under
the parenthetical reader as documented (`GetParentheticalTokenSpec`,
token ends at the matching `)`), the two-page interleaved read and the
single-page read both succeed and produce cell stores identical
cell-for-cell — same states, same missing flags, same polymorphism
flags (remaining conjuncts). -/
theorem interleave_reconstruction :
    HandleStdMatrix GetParentheticalToken true true c2Symbols '?' nulChar
        nulChar 3 3 5 5 c2CharPos c2TaxaLabels c2InterleavedInput =
      some (.error ⟨"assert failed: state set not closed by matching bracket",
        10, 1, 11⟩) ∧
    HandleStdMatrix GetParentheticalToken false true c2Symbols '?' nulChar
        nulChar 3 3 5 5 c2CharPos c2TaxaLabels c2FlatInput =
      some (.error ⟨"assert failed: state set not closed by matching bracket",
        10, 1, 11⟩) ∧
    matrixOf (HandleStdMatrix GetParentheticalTokenSpec true true c2Symbols
      '?' nulChar nulChar 3 3 5 5 c2CharPos c2TaxaLabels c2InterleavedInput) =
      some c2Grid ∧
    matrixOf (HandleStdMatrix GetParentheticalTokenSpec false true c2Symbols
      '?' nulChar nulChar 3 3 5 5 c2CharPos c2TaxaLabels c2FlatInput) =
      some c2Grid ∧
    DiscreteMatrix.IsPolymorphicD (DiscreteMatrix.cell c2Grid 0 2) = true ∧
    DiscreteMatrix.IsPolymorphicD (DiscreteMatrix.cell c2Grid 1 1) = false ∧
    DiscreteMatrix.GetNumStatesD (DiscreteMatrix.cell c2Grid 1 1) = 2 ∧
    DiscreteMatrix.IsMissingD (DiscreteMatrix.cell c2Grid 1 0) = true := by
  refine ⟨rfl, rfl, rfl, rfl, rfl, rfl, rfl, rfl⟩

/-! ## CharactersBlock construction and Reset (charactersblock.cpp,
lines 312-342 and 3278-3328)

All per-section fields of `CharactersBlock`, the constructor's initial
values, and `Reset()`. -/

inductive DataTypesEnum where
  | standard | dna | rna | nucleotide | protein | continuous
  deriving Repr, DecidableEq

structure CharBlockFields where
  isEmpty : Bool
  ntax : Nat
  ntaxTotal : Nat
  nchar : Nat
  ncharTotal : Nat
  newchar : Bool
  newtaxa : Bool
  interleaving : Bool
  transposing : Bool
  respectingCase : Bool
  labels : Bool
  tokens : Bool
  datatype : DataTypesEnum
  missing : Char
  gap : Char
  matchchar : Char
  symbols : List Char
  equates : List (String × String)
  charLabels : List String
  charStates : List (Nat × List String)
  matrix : Option CellGrid
  charPos : Option (List Int)
  taxonPos : Option (List Int)
  activeChar : Option (List Bool)
  activeTaxon : Option (List Bool)
  eliminated : List Nat
  deriving Repr, DecidableEq

/-- `CharactersBlock::ResetSymbols`: the per-datatype standard symbols and
standard equate macros. -/
def ResetSymbols (dt : DataTypesEnum) : List Char × List (String × String) :=
  let syms : List Char :=
    match dt with
    | .dna => "ACGT".data
    | .rna => "ACGU".data
    | .nucleotide => "ACGT".data
    | .protein => "ACDEFGHIKLMNPQRSTVWY*".data
    | _ => "01".data
  let eqs : List (String × String) :=
    if dt = .dna ∨ dt = .rna ∨ dt = .nucleotide then
      [("R", "{AG}"), ("Y", "{CT}"), ("M", "{AC}"), ("K", "{GT}"),
       ("S", "{CG}"), ("W", "{AT}"), ("H", "{ACT}"), ("B", "{CGT}"),
       ("V", "{ACG}"), ("D", "{AGT}"), ("N", "{ACGT}"), ("X", "{ACGT}")]
    else []
  (syms, eqs)

/-- The constructor `CharactersBlock::CharactersBlock`: id "CHARACTERS",
symbols `"01"`, all counts zero, `newchar` true, every other flag false
except `labels`, standard datatype, `'?'` missing, no gap/match
character, no allocated arrays. -/
def CharactersBlock.ctorInit : CharBlockFields :=
  { isEmpty := true, ntax := 0, ntaxTotal := 0, nchar := 0, ncharTotal := 0,
    newchar := true, newtaxa := false, interleaving := false,
    transposing := false, respectingCase := false, labels := true,
    tokens := false, datatype := .standard, missing := '?', gap := nulChar,
    matchchar := nulChar, symbols := "01".data, equates := [],
    charLabels := [], charStates := [], matrix := none, charPos := none,
    taxonPos := none, activeChar := none, activeTaxon := none,
    eliminated := [] }

/-- `CharactersBlock::Reset`: restores the listed fields (and, through
`ResetSymbols`, the symbol alphabet and equate table for the standard
datatype just reinstalled), frees the matrix, position arrays, active
arrays and the eliminated set.  It does **not** assign `tokens`,
`ncharTotal` or `ntaxTotal`. -/
def CharactersBlock.Reset (s : CharBlockFields) : CharBlockFields :=
  { s with
    isEmpty := true, ntax := 0, nchar := 0, newchar := true,
    newtaxa := false, interleaving := false, transposing := false,
    respectingCase := false, labels := true, datatype := .standard,
    missing := '?', gap := nulChar, matchchar := nulChar,
    charLabels := [], charStates := [],
    symbols := (ResetSymbols .standard).1,
    equates := (ResetSymbols .standard).2,
    matrix := none, charPos := none, taxonPos := none,
    activeTaxon := none, activeChar := none, eliminated := [] }

/-- **C10** (frame effect of `CharactersBlock::Reset`).  Reset restores
every per-section field to its constructor default **except** the
multicharacter-token flag `tokens` and the totals `ncharTotal` and
`ntaxTotal`, which keep whatever value the previously parsed section
left; so e.g. `tokens = true` from an earlier `FORMAT TOKENS` (or the old
`ncharTotal`/`ntaxTotal`) is still in effect when the next section is
read, even though the constructor default is `false` (resp. 0). -/
theorem reset_frame_effect (s : CharBlockFields) :
    CharactersBlock.Reset s =
      { CharactersBlock.ctorInit with
        tokens := s.tokens, ncharTotal := s.ncharTotal,
        ntaxTotal := s.ntaxTotal } ∧
    (CharactersBlock.Reset
      { CharactersBlock.ctorInit with
        tokens := true, ncharTotal := 7, ntaxTotal := 4 }).tokens = true ∧
    (CharactersBlock.Reset
      { CharactersBlock.ctorInit with
        tokens := true, ncharTotal := 7, ntaxTotal := 4 }).ncharTotal = 7 ∧
    (CharactersBlock.Reset
      { CharactersBlock.ctorInit with
        tokens := true, ncharTotal := 7, ntaxTotal := 4 }).ntaxTotal = 4 ∧
    CharactersBlock.ctorInit.tokens = false ∧
    CharactersBlock.ctorInit.ncharTotal = 0 ∧
    CharactersBlock.ctorInit.ntaxTotal = 0 := by
  refine ⟨rfl, rfl, rfl, rfl, rfl, rfl, rfl⟩

end STSupport
